import Mathlib

set_option maxRecDepth 1000000

/-!
Verification development for the `wordnet_autotranslate` repository.

The definitions below are a shallow embedding of the Python sources, chiefly
`src/wordnet_autotranslate/pipelines/langgraph_translation_pipeline.py`
(schema validation, JSON payload decoding, retried model invocation, the
iterative synonym-expansion controller, compound deduplication, the prompt
renderers and result assembly) and
`src/wordnet_autotranslate/pipelines/translation_pipeline.py`
(`translate_one` and its field helpers).

Python values flowing through the pipeline (decoded JSON payloads, synset
dictionaries, call records) are modelled by the inductive type `PyVal`;
Python `dict`s with string keys are association lists that keep insertion
order, as Python dicts do.  The backend language model, the optional
`json_repair` dependency and the NLTK WordNet domain lookup are external
collaborators and enter as parameters (`Backend`).  Machine-level aspects
that no claim touches (Unicode case folding beyond ASCII, float literals in
JSON, `TypeError` on non-iterable payload fields) are noted at the
definition concerned.
-/

/-- Embedded Python/JSON value.  Numbers are modelled as integers: none of
the pipeline's contracts nor the inputs exercised below use floats. -/
inductive PyVal : Type where
  | PStr : String → PyVal
  | PInt : Int → PyVal
  | PBool : Bool → PyVal
  | PNone : PyVal
  | PList : List PyVal → PyVal
  | PDict : List (String × PyVal) → PyVal

open PyVal

mutual

/-- Python `==` on embedded values (structural; the cross-type numeric
equalities of Python, such as `True == 1`, never arise on the string
payload fields the pipeline compares). -/
def pyValBEq : PyVal → PyVal → Bool
  | PStr a, PStr b => a == b
  | PInt a, PInt b => a == b
  | PBool a, PBool b => a == b
  | PNone, PNone => true
  | PList a, PList b => pyListBEq a b
  | PDict a, PDict b => pyDictBEq a b
  | _, _ => false

def pyListBEq : List PyVal → List PyVal → Bool
  | [], [] => true
  | x :: xs, y :: ys => pyValBEq x y && pyListBEq xs ys
  | _, _ => false

def pyDictBEq : List (String × PyVal) → List (String × PyVal) → Bool
  | [], [] => true
  | (k1, v1) :: xs, (k2, v2) :: ys => k1 == k2 && pyValBEq v1 v2 && pyDictBEq xs ys
  | _, _ => false

end

/-- A Python dict with string keys, in insertion order. -/
abbrev PyDict := List (String × PyVal)

/-- `d[k]` lookup returning an `Option`. -/
def dictFind (d : PyDict) (k : String) : Option PyVal :=
  match d with
  | [] => none
  | (k', v) :: rest => if k' = k then some v else dictFind rest k

/-- Python `d.get(k, default)`. -/
def pyGet (d : PyDict) (k : String) (dflt : PyVal) : PyVal :=
  (dictFind d k).getD dflt

/-- Python `k in d`. -/
def dictHas (d : PyDict) (k : String) : Bool :=
  (dictFind d k).isSome

/-- Python `d[k] = v`: updates an existing key in place (keeping its
position) or appends a fresh key at the end, as Python dicts do. -/
def dictSet (d : PyDict) (k : String) (v : PyVal) : PyDict :=
  match d with
  | [] => [(k, v)]
  | (k', v') :: rest =>
      if k' = k then (k', v) :: rest else (k', v') :: dictSet rest k v

/-- Python `{**a, **b}`. -/
def dictMerge (a b : PyDict) : PyDict :=
  b.foldl (fun acc kv => dictSet acc kv.1 kv.2) a

/-- The keys of a dict, in order. -/
def dictKeys (d : PyDict) : List String := d.map (·.1)

/-- Python truthiness of an embedded value. -/
def pyTruthy : PyVal → Bool
  | PStr s => s != ""
  | PInt n => n != 0
  | PBool b => b
  | PNone => false
  | PList l => !l.isEmpty
  | PDict d => !d.isEmpty

/-- Python `any(d.values())`. -/
def anyTruthy (d : PyDict) : Bool := d.any (fun kv => pyTruthy kv.2)

/-- Characters accepted by Python `str.strip()` (the ASCII whitespace
subset; the pipeline's strings never carry non-ASCII whitespace). -/
def isPyWs (c : Char) : Bool :=
  c = ' ' ∨ c = '\t' ∨ c = '\n' ∨ c = '\r' ∨ c = '\x0b' ∨ c = '\x0c'

/-- Python `s.strip()`. -/
def pyStrip (s : String) : String :=
  ⟨(s.data.dropWhile isPyWs).reverse.dropWhile isPyWs |>.reverse⟩

/-- Python `s.lower()` (ASCII case folding; the candidate strings the
theorems below exercise are already lower-case outside ASCII). -/
def pyLower (s : String) : String := ⟨s.data.map Char.toLower⟩

/-- `needle` occurs in `haystack` starting at its head. -/
def listIsInit : List Char → List Char → Bool
  | [], _ => true
  | _ :: _, [] => false
  | a :: as, b :: bs => a = b && listIsInit as bs

/-- Python `needle in haystack` (substring containment). -/
def strContainsAux (needle : List Char) : List Char → Bool
  | [] => listIsInit needle []
  | c :: rest => listIsInit needle (c :: rest) || strContainsAux needle rest

def strContains (haystack needle : String) : Bool :=
  strContainsAux needle.data haystack.data

/-- Python `sep.join(items)`. -/
def pyJoin (sep : String) (items : List String) : String :=
  match items with
  | [] => ""
  | x :: rest => rest.foldl (fun acc y => acc ++ sep ++ y) x

/-- The ASCII apostrophe used by Python `repr` of strings. -/
def quoteChar : String := String.singleton (Char.ofNat 39)

mutual

/-- Python `repr(v)` (string quoting uses the ASCII apostrophe and, as in
Python, does not re-escape interior characters on the inputs exercised). -/
def pyReprOf : PyVal → String
  | PStr s => quoteChar ++ s ++ quoteChar
  | PInt n => toString n
  | PBool b => if b then "True" else "False"
  | PNone => "None"
  | PList l => "[" ++ pyJoin ", " (pyReprList l) ++ "]"
  | PDict d => "\x7b" ++ pyJoin ", " (pyReprDict d) ++ "\x7d"

def pyReprList : List PyVal → List String
  | [] => []
  | x :: xs => pyReprOf x :: pyReprList xs

def pyReprDict : List (String × PyVal) → List String
  | [] => []
  | (k, v) :: xs => (quoteChar ++ k ++ quoteChar ++ ": " ++ pyReprOf v) :: pyReprDict xs

end

/-- Python `str(v)` / f-string interpolation of an embedded value. -/
def pyStrOf : PyVal → String
  | PStr s => s
  | PInt n => toString n
  | PBool b => if b then "True" else "False"
  | PNone => "None"
  | PList l => pyReprOf (PList l)
  | PDict d => pyReprOf (PDict d)

/-- Python iteration over a payload value, as it appears in
`for t in payload.get(...)`: lists iterate elements, strings iterate
characters, dicts iterate keys.  Iterating `None` or a number raises
`TypeError` in Python; no theorem below exercises that case, and the
embedding returns `[]` there. -/
def pyIter : PyVal → List PyVal
  | PList l => l
  | PStr s => s.data.map (fun c => PStr (String.singleton c))
  | PDict d => d.map (fun kv => PStr kv.1)
  | _ => []

/-- Lexicographic (code-point) order on strings, as Python compares
`str` values in `sorted`. -/
def charListLt : List Char → List Char → Bool
  | [], [] => false
  | [], _ :: _ => true
  | _ :: _, [] => false
  | a :: as, b :: bs =>
      if a.val < b.val then true
      else if b.val < a.val then false
      else charListLt as bs

def pyStrLt (a b : String) : Bool := charListLt a.data b.data

/-- `sorted` over the string members of the accumulated synonym set
(insertion sort; the set only ever holds strings on the paths the
theorems exercise, and non-strings are ordered after all strings so the
function stays total). -/
def pyValLt (a b : PyVal) : Bool :=
  match a, b with
  | PStr x, PStr y => pyStrLt x y
  | PStr _, _ => true
  | _, _ => false

def sortedInsert (x : PyVal) : List PyVal → List PyVal
  | [] => [x]
  | y :: rest => if pyValLt y x then y :: sortedInsert x rest else x :: y :: rest

def pySorted (l : List PyVal) : List PyVal :=
  l.foldl (fun acc x => sortedInsert x acc) []

/-! ### JSON decoding (`json.loads`)

A recursive-descent parser mirroring Python's `json.loads` on the value
forms the pipeline produces and consumes: objects, arrays, double-quoted
strings with the standard escapes, integers, `true`/`false`/`null`.
Float literals and `\uXXXX` escapes are not modelled (no contract field
and no input exercised below contains them); such inputs simply fail to
parse, which the decoder treats like any other undecodable candidate.
Duplicate object keys keep the last value, as in Python. -/

def isJsonWs (c : Char) : Bool := c = ' ' ∨ c = '\t' ∨ c = '\n' ∨ c = '\r'

def skipWs (cs : List Char) : List Char := cs.dropWhile isJsonWs

def parseEscape (c : Char) : Option Char :=
  if c = '"' then some '"'
  else if c = '\\' then some '\\'
  else if c = '/' then some '/'
  else if c = 'b' then some '\x08'
  else if c = 'f' then some '\x0c'
  else if c = 'n' then some '\n'
  else if c = 'r' then some '\r'
  else if c = 't' then some '\t'
  else none

def parseJsonStr : List Char → Option (String × List Char)
  | [] => none
  | c :: rest =>
      if c = '"' then some ("", rest)
      else if c = '\\' then
        match rest with
        | [] => none
        | e :: rest' =>
            match parseEscape e with
            | none => none
            | some ch =>
                match parseJsonStr rest' with
                | none => none
                | some (s, rem) => some (String.singleton ch ++ s, rem)
      else
        match parseJsonStr rest with
        | none => none
        | some (s, rem) => some (String.singleton c ++ s, rem)

def digitsToNat (ds : List Char) : Nat :=
  ds.foldl (fun acc d => acc * 10 + (d.toNat - 48)) 0

/-- A digit run followed by `.`, `e` or `E` would be a float literal,
which this embedding does not model (see module comment). -/
def floatHead : List Char → Bool
  | d :: _ => d = '.' || d = 'e' || d = 'E'
  | [] => false

mutual

def parseJsonVal (fuel : Nat) (cs : List Char) : Option (PyVal × List Char) :=
  match fuel with
  | 0 => none
  | fuel + 1 =>
    match skipWs cs with
    | [] => none
    | c :: rest =>
        if c = '"' then
          match parseJsonStr rest with
          | none => none
          | some (s, rem) => some (PStr s, rem)
        else if c = '\x7b' then parseJsonObj fuel (skipWs rest) true []
        else if c = '[' then parseJsonArr fuel (skipWs rest) true []
        else if c = 't' then
          if listIsInit "rue".data rest then some (PBool true, rest.drop 3) else none
        else if c = 'f' then
          if listIsInit "alse".data rest then some (PBool false, rest.drop 4) else none
        else if c = 'n' then
          if listIsInit "ull".data rest then some (PNone, rest.drop 3) else none
        else if c = '-' then
          match rest.span Char.isDigit with
          | (ds, rem) =>
              if ds.isEmpty || floatHead rem then none
              else some (PInt (-(digitsToNat ds : Int)), rem)
        else if c.isDigit then
          match (c :: rest).span Char.isDigit with
          | (ds, rem) =>
              if floatHead rem then none
              else some (PInt (digitsToNat ds : Int), rem)
        else none

def parseJsonObj (fuel : Nat) (cs : List Char) (first : Bool) (acc : PyDict) :
    Option (PyVal × List Char) :=
  match fuel with
  | 0 => none
  | fuel + 1 =>
    match cs with
    | '\x7d' :: rest => if first then some (PDict acc, rest) else none
    | _ =>
      let cs := if first then cs else
        match cs with
        | ',' :: rest => skipWs rest
        | _ => []
      if !first ∧ cs.isEmpty then none else
      match cs with
      | '"' :: rest =>
          match parseJsonStr rest with
          | none => none
          | some (k, rem) =>
              match skipWs rem with
              | ':' :: rem2 =>
                  match parseJsonVal fuel rem2 with
                  | none => none
                  | some (v, rem3) =>
                      match skipWs rem3 with
                      | '\x7d' :: rem4 => some (PDict (dictSet acc k v), rem4)
                      | ',' :: rem4 => parseJsonObj fuel (',' :: rem4) false (dictSet acc k v)
                      | _ => none
              | _ => none
      | _ => none

def parseJsonArr (fuel : Nat) (cs : List Char) (first : Bool) (acc : List PyVal) :
    Option (PyVal × List Char) :=
  match fuel with
  | 0 => none
  | fuel + 1 =>
    match cs with
    | ']' :: rest => if first then some (PList acc.reverse, rest) else none
    | _ =>
      let cs := if first then cs else
        match cs with
        | ',' :: rest => rest
        | _ => []
      if !first ∧ cs.isEmpty then none else
      match parseJsonVal fuel cs with
      | none => none
      | some (v, rem) =>
          match skipWs rem with
          | ']' :: rem2 => some (PList (v :: acc).reverse, rem2)
          | ',' :: rem2 => parseJsonArr fuel (',' :: rem2) false (v :: acc)
          | _ => none

end

/-- Python `json.loads`, restricted to inputs that decode to a value; any
trailing non-whitespace is an error ("Extra data"), as in Python. -/
def jsonLoads (s : String) : Option PyVal :=
  match parseJsonVal (s.length + 1) s.data with
  | none => none
  | some (v, rem) => if (skipWs rem).isEmpty then some v else none

/-! ### Stage contracts and schema validation
(`validate_stage_payload`, `_validate_payload_for_stage`)

Each pydantic model of the source is embedded as a list of field
specifications.  `check` embeds pydantic's validation of the field's
annotation, returning the value as `model_dump` would emit it (nested
`DefinitionQualityIssue` models are dumped back to dicts with exactly
their declared keys, in declaration order).  Pydantic's lax-mode string
coercions for numeric and boolean targets are not modelled: no contract
field receives such input in any theorem below.  Extra payload keys are
ignored on success, exactly as pydantic's default config does. -/

structure FieldSpec where
  name : String
  required : Bool
  /-- The resolved default for a non-required field (declared default or
  `default_factory()` result); unused when `required` is true. -/
  dflt : PyVal
  check : PyVal → Option PyVal

abbrev StageSchema := List FieldSpec

def chkStr : PyVal → Option PyVal
  | PStr s => some (PStr s)
  | _ => none

/-- `str = Field(..., min_length=3)`. -/
def chkStrMin3 : PyVal → Option PyVal
  | PStr s => if 3 ≤ s.length then some (PStr s) else none
  | _ => none

def chkOptStr : PyVal → Option PyVal
  | PStr s => some (PStr s)
  | PNone => some PNone
  | _ => none

def chkListStr : PyVal → Option PyVal
  | PList l => if l.all (fun v => match v with | PStr _ => true | _ => false)
               then some (PList l) else none
  | _ => none

def chkOptListStr : PyVal → Option PyVal
  | PNone => some PNone
  | v => chkListStr v

def chkListOptStr : PyVal → Option PyVal
  | PList l => if l.all (fun v => match v with | PStr _ => true | PNone => true | _ => false)
               then some (PList l) else none
  | _ => none

def chkDictOptStr : PyVal → Option PyVal
  | PDict d => if d.all (fun kv => match kv.2 with | PStr _ => true | PNone => true | _ => false)
               then some (PDict d) else none
  | _ => none

def chkDictStr : PyVal → Option PyVal
  | PDict d => if d.all (fun kv => match kv.2 with | PStr _ => true | _ => false)
               then some (PDict d) else none
  | _ => none

def chkOptDictStr : PyVal → Option PyVal
  | PNone => some PNone
  | v => chkDictStr v

def chkOptInt : PyVal → Option PyVal
  | PNone => some PNone
  | PInt n => some (PInt n)
  | _ => none

def chkOptDictInt : PyVal → Option PyVal
  | PNone => some PNone
  | PDict d => if d.all (fun kv => match kv.2 with | PInt _ => true | _ => false)
               then some (PDict d) else none
  | _ => none

def chkOptBool : PyVal → Option PyVal
  | PNone => some PNone
  | PBool b => some (PBool b)
  | _ => none

/-- `Literal["ok", "needs_revision"]`. -/
def chkStatusLit : PyVal → Option PyVal
  | PStr s => if s = "ok" ∨ s = "needs_revision" then some (PStr s) else none
  | _ => none

/-- One `DefinitionQualityIssue` nested model: validated and re-dumped
with exactly its declared keys in declaration order. -/
def chkIssue : PyVal → Option PyVal
  | PDict d =>
      match dictFind d "type", dictFind d "message" with
      | some (PStr t), some (PStr m) =>
          if t = "circular" ∨ t = "grammar" ∨ t = "style"
          then some (PDict [("type", PStr t), ("message", PStr m)])
          else none
      | _, _ => none
  | _ => none

def chkIssueList : PyVal → Option PyVal
  | PList l =>
      let checked := l.map chkIssue
      if checked.all Option.isSome
      then some (PList (checked.filterMap id))
      else none
  | _ => none

/-- `Optional[List[Dict[str, str]]]` (`removed` of the filtering stage). -/
def chkOptListDictStr : PyVal → Option PyVal
  | PNone => some PNone
  | PList l => if l.all (fun v => (chkDictStr v).isSome)
               then some (PList l) else none
  | _ => none

def SenseAnalysisSchema : StageSchema :=
  [ ⟨"sense_summary", true, PNone, chkStrMin3⟩,
    ⟨"contrastive_note", false, PNone, chkOptStr⟩,
    ⟨"key_features", false, PList [], chkListStr⟩,
    ⟨"domain_tags", false, PList [], chkOptListStr⟩,
    ⟨"confidence", true, PNone, chkStr⟩ ]

def DefinitionTranslationSchema : StageSchema :=
  [ ⟨"definition_translation", true, PNone, chkStr⟩,
    ⟨"notes", false, PNone, chkOptStr⟩,
    ⟨"examples", false, PList [], chkOptListStr⟩ ]

def LemmaTranslationSchema : StageSchema :=
  [ ⟨"initial_translations", true, PNone, chkListOptStr⟩,
    ⟨"alignment", true, PNone, chkDictOptStr⟩ ]

def ExpansionSchema : StageSchema :=
  [ ⟨"expanded_synonyms", true, PNone, chkListStr⟩,
    ⟨"rationale", false, PDict [], chkOptDictStr⟩,
    ⟨"iterations_run", false, PInt 1, chkOptInt⟩,
    ⟨"synonym_provenance", false, PDict [], chkOptDictInt⟩,
    ⟨"converged", false, PBool false, chkOptBool⟩ ]

def FilteringSchema : StageSchema :=
  [ ⟨"filtered_synonyms", true, PNone, chkListStr⟩,
    ⟨"confidence_by_word", false, PDict [], chkOptDictStr⟩,
    ⟨"removed", false, PList [], chkOptListDictStr⟩,
    ⟨"confidence", true, PNone, chkStr⟩ ]

def DefinitionQualitySchema : StageSchema :=
  [ ⟨"status", true, PNone, chkStatusLit⟩,
    ⟨"issues", false, PList [], chkIssueList⟩,
    ⟨"revised_definition", false, PNone, chkOptStr⟩,
    ⟨"notes", false, PNone, chkOptStr⟩ ]

/-- Validation of one declared field: a present value must pass its
annotation's check; an absent one must not be required and contributes
the declared default. -/
def fieldResult (f : FieldSpec) (payload : PyDict) : Option (String × PyVal) :=
  match dictFind payload f.name with
  | some v => (f.check v).map (fun v' => (f.name, v'))
  | none => if f.required then none else some (f.name, f.dflt)

/-- `schema_cls(**payload).model_dump()`: `some` on success (declared
fields only, in declaration order, defaults filled), `none` when pydantic
raises `ValidationError`. -/
def pydanticValidate (schema : StageSchema) (payload : PyDict) : Option PyDict :=
  match schema with
  | [] => some []
  | f :: rest =>
      match fieldResult f payload, pydanticValidate rest payload with
      | some kv, some tail => some (kv :: tail)
      | _, _ => none

/-- The fallback dict built in `validate_stage_payload`'s `except` branch:
required fields get an empty string, other fields their declared default
(every optional field of these schemas has a default or a factory, so the
final `None` branch of the source never fires). -/
def fallbackFill (schema : StageSchema) : PyDict :=
  schema.map (fun f => (f.name, if f.required then PStr "" else f.dflt))

/-- `validate_stage_payload(payload, schema_cls, stage_name)` — validate
with auto-repair; on `ValidationError` it returns
`{**fallback, **payload}` (the logged warning is side-effect only). -/
def validate_stage_payload (payload : PyDict) (schema : StageSchema) : PyDict :=
  match pydanticValidate schema payload with
  | some d => d
  | none => dictMerge (fallbackFill schema) payload

/-- `LangGraphTranslationPipeline._validate_payload_for_stage`: picks the
schema by exact stage name; any other stage name returns the payload
unchanged. -/
def validatePayloadForStage (stage : String) (payload : PyDict) : PyDict :=
  if stage = "sense_analysis" then validate_stage_payload payload SenseAnalysisSchema
  else if stage = "definition_translation" then validate_stage_payload payload DefinitionTranslationSchema
  else if stage = "initial_translation" then validate_stage_payload payload LemmaTranslationSchema
  else if stage = "synonym_expansion" then validate_stage_payload payload ExpansionSchema
  else if stage = "synonym_filtering" then validate_stage_payload payload FilteringSchema
  else if stage = "definition_quality" then validate_stage_payload payload DefinitionQualitySchema
  else payload

/-! ### Best-effort payload decoding (`_decode_llm_payload`) -/

/-- First index at which `pat` occurs in `cs`, if any. -/
def findSubAux (pat : List Char) : List Char → Nat → Option Nat
  | [], i => if pat.isEmpty then some i else none
  | c :: rest, i =>
      if listIsInit pat (c :: rest) then some i else findSubAux pat rest (i + 1)

def findSub (cs pat : List Char) : Option Nat := findSubAux pat cs 0

def lowerChars (cs : List Char) : List Char := cs.map Char.toLower

/-- `re.sub(r"(?is)<think>.*?</think>", "", raw)`: repeatedly delete the
region from a `<think>` tag (case-insensitive) to the first `</think>`
after it; an opening tag with no closing tag is left alone, and — as with
`re.sub` — text joined across a deletion is not re-scanned. -/
def stripThinkAux : Nat → List Char → List Char
  | 0, cs => cs
  | fuel + 1, cs =>
      match findSub (lowerChars cs) "<think>".data with
      | none => cs
      | some i =>
          let afterOpen := cs.drop (i + 7)
          match findSub (lowerChars afterOpen) "</think>".data with
          | none => cs
          | some j => cs.take i ++ stripThinkAux fuel (afterOpen.drop (j + 8))

def stripThink (s : String) : String := ⟨stripThinkAux s.length s.data⟩

/-- Python `\s` on the ASCII range, for the fence pattern's `\s*`. -/
def isReWs (c : Char) : Bool :=
  c = ' ' ∨ c = '\t' ∨ c = '\n' ∨ c = '\r' ∨ c = '\x0b' ∨ c = '\x0c'

/-- `re.search(r"```(?:json)?\s*(.*?)```", cleaned, re.DOTALL)`: at the
leftmost backtick fence, optionally consume `json`, then whitespace, then
capture minimally up to the next fence.  A fence with no closing fence
after it cannot complete the pattern, so scanning continues at the next
character, as the regex engine would. -/
def findFenceAux : Nat → List Char → Option (List Char)
  | 0, _ => none
  | fuel + 1, cs =>
      match cs with
      | [] => none
      | _ :: rest =>
          if listIsInit "```".data cs then
            let afterTicks := cs.drop 3
            let afterJson := if listIsInit "json".data afterTicks then afterTicks.drop 4 else afterTicks
            let content := afterJson.dropWhile isReWs
            match findSub content "```".data with
            | some r => some (content.take r)
            | none => findFenceAux fuel rest
          else findFenceAux fuel rest

def findFence (s : String) : Option String :=
  (findFenceAux (s.length + 1) s.data).map (fun cs => (⟨cs⟩ : String))

/-- `re.search(r"\{.*\}", cleaned, re.DOTALL)`: from the first opening
brace that precedes the last closing brace, through that last brace. -/
def findBraceSpan (s : String) : Option String :=
  let cs := s.data
  match findSub cs ['\x7b'] with
  | none => none
  | some i =>
      match findSub cs.reverse ['\x7d'] with
      | none => none
      | some jr =>
          let j := cs.length - 1 - jr
          if i < j then some ⟨(cs.take (j + 1)).drop i⟩ else none

/-- First candidate that `json.loads` turns into a dict (skipping empty
candidates, non-dict decodes and decode errors), as in the source's
decode loop. -/
def firstDictOf (loads : String → Option PyVal) (candidates : List String) : Option PyDict :=
  match candidates with
  | [] => none
  | c :: rest =>
      if c = "" then firstDictOf loads rest
      else
        match loads c with
        | some (PDict d) => some d
        | _ => firstDictOf loads rest

/-- The candidate list the decoder accumulates for a non-empty input:
the (stripped) fenced-block content, the cleaned text itself, and the
first-to-last brace span. -/
def decodeCandidates (raw : String) : List String :=
  let cleaned := pyStrip (stripThink raw)
  let fenceCands : List String := match findFence cleaned with
    | some g => [pyStrip g]
    | none => []
  let braceCands : List String := match findBraceSpan cleaned with
    | some g => [g]
    | none => []
  fenceCands ++ [cleaned] ++ braceCands

/-- The `json_repair` fallback pass over the candidates (skipped entirely
when the optional dependency is missing; a repair or re-decode failure on
one candidate moves on to the next). -/
def decodeRepairPass (repairJson : Option (String → Option String))
    (candidates : List String) : Option PyDict :=
  match repairJson with
  | none => none
  | some rep =>
      firstDictOf (fun c => match rep c with
        | none => none
        | some fixed => jsonLoads fixed) candidates

/-- `LangGraphTranslationPipeline._decode_llm_payload(raw)` — a mapping
for every input, never an exception.  `repairJson` models the optional
`json_repair.repair_json` dependency: `none` when the import fails,
otherwise a function returning the repaired text or `none` when repairing
itself raises. -/
def decode_llm_payload (repairJson : Option (String → Option String)) (raw : String) : PyDict :=
  if raw = "" then [("translation", PStr ""), ("examples", PList []), ("notes", PNone)]
  else
    let candidates := decodeCandidates raw
    match firstDictOf jsonLoads candidates with
    | some d => d
    | none =>
        match decodeRepairPass repairJson candidates with
        | some d => d
        | none => [("translation", PStr (pyStrip (stripThink raw)))]

/-! ### `textwrap.dedent` and `LanguageUtils` -/

def isSpaceTab (c : Char) : Bool := c = ' ' ∨ c = '\t'

/-- Python `text.split("\n")` (always at least one piece). -/
def splitNl : List Char → List (List Char)
  | [] => [[]]
  | c :: rest =>
      let r := splitNl rest
      if c = '\n' then [] :: r
      else
        match r with
        | [] => [[c]]
        | h :: t => (c :: h) :: t

/-- Longest common prefix of two indent runs. -/
def commonIndent : List Char → List Char → List Char
  | [], _ => []
  | _, [] => []
  | a :: as, b :: bs => if a = b then a :: commonIndent as bs else []

/-- `textwrap.dedent`: whitespace-only lines are first normalised to empty
lines; the margin is the longest common leading space/tab run of the
remaining lines with content, and is then removed from the front of every
line that starts with it. -/
def pyDedent (s : String) : String :=
  let lines := (splitNl s.data).map (fun cs => (⟨cs⟩ : String))
  let lines := lines.map (fun l =>
    if l ≠ "" ∧ l.data.all isSpaceTab then "" else l)
  let indents := (lines.filter (fun l => l.data.any (fun c => !isSpaceTab c))).map
    (fun l => l.data.takeWhile isSpaceTab)
  let margin : List Char :=
    match indents with
    | [] => []
    | i0 :: rest => rest.foldl commonIndent i0
  let lines := lines.map (fun l =>
    if listIsInit margin l.data then (⟨l.data.drop margin.length⟩ : String) else l)
  pyJoin "\n" lines

/-- `LanguageUtils.get_language_name` (the `SUPPORTED_LANGUAGES` table;
note that the Serbian code `sr` is not in it and yields `Unknown (sr)`). -/
def getLanguageName (code : String) : String :=
  let l := pyLower code
  if l = "en" then "English"
  else if l = "es" then "Spanish"
  else if l = "fr" then "French"
  else if l = "de" then "German"
  else if l = "pt" then "Portuguese"
  else if l = "it" then "Italian"
  else if l = "ru" then "Russian"
  else if l = "zh" then "Chinese"
  else if l = "ja" then "Japanese"
  else if l = "ko" then "Korean"
  else "Unknown (" ++ code ++ ")"

/-- `LanguageUtils.normalize_pos_for_english` (`b` → `r`; other tags
lower-cased and kept). -/
def normalizePosForEnglish (pos : String) : String :=
  if pos = "" then pos
  else
    let p := pyLower pos
    if p = "b" then "r" else p

/-! ### External collaborators and pipeline configuration -/

/-- `response.content` of the backend model: a string or a list of
fragments to concatenate, exactly the two shapes `_call_llm` normalises. -/
inductive RespContent : Type where
  | str : String → RespContent
  | fragments : List PyVal → RespContent

/-- The external collaborators of one pipeline run: the backend model
(`resp n` is the content of the `n`-th `llm.invoke` call), the optional
`json_repair` dependency, and the NLTK WordNet domain lookup behind the
non-empty-id guard of `_get_wordnet_domain_info`. -/
structure Backend where
  resp : Nat → RespContent
  repairJson : Option (String → Option String)
  wordnetDomain : PyVal → PyDict

/-- The pipeline fields the embedded methods read
(`LangGraphTranslationPipeline.__init__` defaults shown in the source:
`source_lang="en"`, `target_lang="sr"`, `DEFAULT_SYSTEM_PROMPT`,
`max_expansion_iterations=5`). -/
structure PipelineCfg where
  source_lang : String
  target_lang : String
  system_prompt : String
  maxExpansionIterations : Nat

def DEFAULT_SYSTEM_PROMPT : String :=
  "You are an expert lexicographer helping expand WordNet into less " ++
  "resourced languages. Produce faithful, idiomatic translations and " ++
  "keep subtle sense distinctions intact. Return well-structured JSON."

def defaultCfg : PipelineCfg :=
  ⟨"en", "sr", DEFAULT_SYSTEM_PROMPT, 5⟩

/-- `_get_wordnet_domain_info`: a falsy id short-circuits to `{}` before
any NLTK access. -/
def getWordnetDomainInfo (bk : Backend) (englishId : PyVal) : PyDict :=
  if !pyTruthy englishId then [] else bk.wordnetDomain englishId

/-! ### Prompt renderers

Each renderer assembles the interpolated f-string of the source, then
applies `textwrap.dedent` and `str.strip` — in that order, i.e. on the
already-interpolated text, as Python does.  `Python `x or y`` chains are
embedded by truthiness.  Where the source would raise `TypeError`
(`", ".join` over non-string lemmas), the embedding interpolates `str()`
of the element; no theorem exercises such inputs. -/

/-- Python `x or y` over embedded values. -/
def pyOr (x y : PyVal) : PyVal := if pyTruthy x then x else y

/-- Python `s or d` where `s` is already a `str`. -/
def strOr (s d : String) : String := if s = "" then d else s

/-- `_render_sense_prompt`. -/
def renderSensePrompt (bk : Backend) (synset : PyDict) : String :=
  let lemmas := pyOr (pyGet synset "lemmas" PNone) (pyOr (pyGet synset "literals" PNone) (PList []))
  let lemmasStr := match lemmas with
    | PList l => pyJoin ", " (l.map pyStrOf)
    | v => pyStrOf v
  let definition := pyOr (pyGet synset "definition" PNone) (pyOr (pyGet synset "gloss" PNone) (PStr ""))
  let examples := pyOr (pyGet synset "examples" PNone) (PList [])
  let examplesStr := if pyTruthy examples
    then pyJoin "\n- " ((pyIter examples).map pyStrOf) else "(no examples)"
  let pos := pyOr (pyGet synset "pos" PNone) (pyOr (pyGet synset "part_of_speech" PNone) (PStr ""))
  let normalizedPos := if pyTruthy pos then normalizePosForEnglish (pyStrOf pos) else ""
  let englishId := pyOr (pyGet synset "id" PNone)
    (pyOr (pyGet synset "english_id" PNone) (pyOr (pyGet synset "ili_id" PNone) (PStr "")))
  let domainInfo := getWordnetDomainInfo bk englishId
  let lexname := pyGet domainInfo "lexname" (PStr "")
  let topicDomains := pyGet domainInfo "topic_domains" (PList [])
  let topicDomainsStr := if pyTruthy topicDomains
    then pyJoin ", " ((pyIter topicDomains).map pyStrOf) else "(none)"
  pyStrip (pyDedent (
    "\n            Analyse the following WordNet synset carefully.\n\n            Synset ID: " ++
    pyStrOf englishId ++
    "\n            POS: " ++
    (if normalizedPos ≠ "" then normalizedPos else pyStrOf (pyOr pos (PStr "unknown"))) ++
    "\n            Lexname: " ++
    pyStrOf (pyOr lexname (PStr "(not available)")) ++
    "\n            Topic domains: " ++
    topicDomainsStr ++
    "\n            English lemmas: " ++
    lemmasStr ++
    "\n            Definition: " ++
    pyStrOf (pyOr definition (PStr "(not provided)")) ++
    "\n            Usage examples:\n            - " ++
    examplesStr ++
    "\n\n            Return JSON:\n            \x7b\n              \"sense_summary\": \"1–2 sentence English description capturing nuance.\",\n              \"contrastive_note\": \"What distinguishes this sense from other senses of the lemma.\",\n              \"key_features\": [\"short salient features\"],\n              \"domain_tags\": [\"optional topical tags\"],\n              \"confidence\": \"high|medium|low\"\n            \x7d\n            Focus on *what makes this sense unique*, not just definitional paraphrasing.\n            "))

/-- `_render_definition_prompt`. -/
def renderDefinitionPrompt (cfg : PipelineCfg) (synset sensePayload : PyDict) : String :=
  let targetName := getLanguageName cfg.target_lang
  let definition := pyOr (pyGet synset "definition" PNone) (pyOr (pyGet synset "gloss" PNone) (PStr ""))
  let senseSummary := pyGet sensePayload "sense_summary" (PStr "")
  let keyFeatures := pyOr (pyGet sensePayload "key_features" PNone) (PList [])
  let keyFeaturesStr := if pyTruthy keyFeatures
    then pyJoin "\n- " ((pyIter keyFeatures).map pyStrOf) else "(none)"
  pyStrip (pyDedent (
    "\n            Translate this English WordNet gloss into " ++
    targetName ++
    ".\n\n            Original definition: \"" ++
    pyStrOf (pyOr definition (PStr "(not provided)")) ++
    "\"\n            Sense summary: " ++
    pyStrOf (pyOr senseSummary (PStr "(no summary provided)")) ++
    "\n            Key features:\n            - " ++
    keyFeaturesStr ++
    "\n\n            Guidelines:\n            - Output must sound like a *dictionary gloss* in " ++
    targetName ++
    ": short, neutral, non-sentence form.\n            - Keep factual and stylistic fidelity.\n            - If uncertain, give literal translation plus clarifying note.\n\n            Return JSON:\n            \x7b\n              \"definition_translation\": \"gloss in " ++
    targetName ++
    "\",\n              \"notes\": \"optional lexicographer comment\",\n              \"examples\": [\"example1\", \"example2\"]\n            \x7d\n            "))

/-- `_render_initial_translation_prompt`. -/
def renderInitialTranslationPrompt (cfg : PipelineCfg) (synset sensePayload : PyDict) : String :=
  let targetName := getLanguageName cfg.target_lang
  let lemmas := pyOr (pyGet synset "lemmas" PNone) (pyOr (pyGet synset "literals" PNone) (PList []))
  let lemmasList := match lemmas with
    | PList l => PList l
    | v => PList [v]
  let senseSummary := pyGet sensePayload "sense_summary" (PStr "")
  pyStrip (pyDedent (
    "\n            Translate each English lemma into " ++
    targetName ++
    ", preserving one-to-one order.\n\n            English lemmas: " ++
    pyStrOf lemmasList ++
    "\n            Sense summary: " ++
    pyStrOf (pyOr senseSummary (PStr "(no summary available)")) ++
    "\n\n            Rules:\n            - Each translation must match *this sense*, not general meaning.\n            - Keep array order aligned to lemmas; use null if no exact equivalent.\n\n            Return JSON:\n            \x7b\n              \"initial_translations\": [\"lemma1_translation\", \"lemma2_translation\", ...],\n              \"alignment\": \x7b\"lemma1\": \"translation1\", \"lemma2\": \"translation2\"\x7d\n            \x7d\n            "))

/-- `_render_expansion_prompt`.  Note the arguments: the initial, sense
and definition payloads only — the accumulated candidate set is not among
them. -/
def renderExpansionPrompt (cfg : PipelineCfg)
    (initialPayload sensePayload definitionPayload : PyDict) : String :=
  let targetName := getLanguageName cfg.target_lang
  let initialTranslations := (pyIter (pyGet initialPayload "initial_translations" (PList []))).filter
    (fun t => !pyValBEq t PNone)
  let baseSynonyms := if !initialTranslations.isEmpty
    then pyJoin ", " (initialTranslations.map pyStrOf) else "(none)"
  let senseSummary := pyGet sensePayload "sense_summary" (PStr "")
  let definitionTranslation := pyGet definitionPayload "definition_translation" (PStr "")
  pyStrip (pyDedent (
    "\n            You are expanding a synonym set for a WordNet synset in " ++
    targetName ++
    ".\n\n            Core meaning (sense summary):\n            " ++
    pyStrOf (pyOr senseSummary (PStr "(no summary available)")) ++
    "\n\n            Translated definition (for reference):\n            " ++
    pyStrOf (pyOr definitionTranslation (PStr "(not available)")) ++
    "\n\n            Existing " ++
    targetName ++
    " translations:\n            " ++
    baseSynonyms ++
    "\n\n            Guidelines:\n            - Generate new synonyms that express **exactly this concept**, not other senses of the same word.\n            - Stay faithful to the described meaning and avoid extensions that fit different senses.\n            - Exclude expressions that refer to locations, titles, or figurative uses unless the definition requires them.\n            - Do not rely on surface similarity to the existing words; reason from the concept itself.\n            - Keep to canonical lemma forms and natural, modern vocabulary.\n\n            Return JSON:\n            \x7b\n              \"expanded_synonyms\": [\"lemma1\", \"lemma2\", ...],\n              \"rationale\": \x7b\n                 \"lemma1\": \"explanation of conceptual alignment\",\n                 \"lemma2\": \"explanation of conceptual alignment\"\n              \x7d\n            \x7d\n            "))

/-- `_render_filtering_prompt`. -/
def renderFilteringPrompt (cfg : PipelineCfg)
    (expansionPayload sensePayload definitionPayload : PyDict) : String :=
  let targetName := getLanguageName cfg.target_lang
  let expandedSynonyms := pyGet expansionPayload "expanded_synonyms" (PList [])
  let expanded := if pyTruthy expandedSynonyms
    then pyJoin ", " ((pyIter expandedSynonyms).map pyStrOf) else "(none)"
  let senseSummary := pyGet sensePayload "sense_summary" (PStr "")
  let definitionTranslation := pyGet definitionPayload "definition_translation" (PStr "")
  pyStrip (pyDedent (
    "\n            Final validation of " ++
    targetName ++
    " synonym candidates.\n\n            Candidates: " ++
    expanded ++
    "\n\n            Sense summary: " ++
    pyStrOf (pyOr senseSummary (PStr "(no summary available)")) ++
    "\n            Definition (translated): " ++
    pyStrOf (pyOr definitionTranslation (PStr "(not available)")) ++
    "\n\n            Guidelines:\n            - Evaluate each candidate strictly against the definition, not surface similarity.\n            - Keep words that express the same central meaning or a culturally natural equivalent.\n            - Prefer base lemmas, but also keep aspectual or derivational variants if they express\n              the same action, state, or entity type.\n            - When a candidate's meaning naturally spans multiple related interpretations\n              (e.g., an entity and its location, or an organization and its premises),\n              treat this as normal lexical polysemy. Keep the word if at least one of its\n              established interpretations clearly fits the definition, even if others do not.\n            - Remove candidates that merely restate the generic hypernym from the definition\n              (for instance, a term meaning only \"object\" or \"building\" when the sense is a specific kind).\n            - Remove expressions with added modifiers, particles, or typical objects that narrow or\n              shift the intended scope.\n            - Retain idiomatic forms only if they are genuinely used interchangeably with the target concept.\n\n            Return structured JSON:\n            \x7b\n              \"filtered_synonyms\": [\"lemma1\", \"lemma2\"],\n              \"confidence_by_word\": \x7b\"lemma1\": \"high\", \"lemma2\": \"medium\"\x7d,\n              \"removed\": [\x7b\"word\": \"X\", \"reason\": \"too generic / mismatched sense\"\x7d],\n              \"confidence\": \"high|medium|low\"\n            \x7d\n            "))

/-- `_render_definition_quality_prompt` (takes the already-extracted
filtered synonym strings and definition text, like the source's static
helper). -/
def renderDefinitionQualityPrompt (filteredSynonyms : List String)
    (definitionTranslation : String) (targetLang : String) : String :=
  let expanded := if !filteredSynonyms.isEmpty then pyJoin ", " filteredSynonyms else "(none)"
  let targetName := getLanguageName targetLang
  pyStrip (pyDedent (
    "\n            Evaluate the linguistic and stylistic quality of this " ++
    targetName ++
    " dictionary definition.\n\n            Definition:\n            \"" ++
    definitionTranslation ++
    "\"\n\n            Synonyms (lemmas):\n            " ++
    expanded ++
    "\n\n            Tasks:\n            1. **Circularity** — Check if any lemma word or its close inflectional form\n               appears directly in the definition, which would create a circular definition.\n               If this occurs, suggest a neutral rephrasing that avoids repetition.\n\n            2. **Grammar and agreement** — Verify correctness of inflection, case,\n               number, and gender, as appropriate for " ++
    targetName ++
    ". Identify ungrammatical\n               or mechanically translated phrasing.\n\n            3. **Style and fluency** — Ensure the definition is concise, clear, and\n               natural in the lexicographic register of " ++
    targetName ++
    ". Prefer balanced\n               clause structure and neutral tone over heavy nominalization or literal phrasing.\n\n            4. If any issues are detected, produce a corrected version that maintains\n               the original meaning while improving grammar and style.\n\n            Return structured JSON:\n            \x7b\n              \"status\": \"ok\" | \"needs_revision\",\n              \"issues\": [\n                \x7b\"type\": \"circular\" | \"grammar\" | \"style\", \"message\": \"brief explanation\"\x7d,\n              ],\n              \"revised_definition\": \"rewritten definition if revision is required, otherwise original\",\n              \"notes\": \"short summary of evaluation outcome\"\n            \x7d\n            "))

/-! ### Model invocation with retry (`_call_llm`) -/

/-- The response normalisation at the top of `_call_llm`: a list-shaped
`content` is joined fragment-wise (`fragment.get("text", "")` for dicts,
`str(fragment)` otherwise — Python would raise `TypeError` on a non-string
`text` value inside `"".join`; the embedding interpolates `str()` there
and no theorem exercises that input). -/
def normalizeContent : RespContent → String
  | RespContent.str s => s
  | RespContent.fragments l =>
      pyJoin "" (l.map (fun f => match f with
        | PDict d => pyStrOf (pyGet d "text" (PStr ""))
        | other => pyStrOf other))

/-- The call record `_call_llm` builds on a successful attempt. -/
def callRecord (stage prompt systemContent raw : String) (payload : PyDict) : PyDict :=
  [ ("stage", PStr stage),
    ("prompt", PStr prompt),
    ("system_prompt", PStr systemContent),
    ("raw_response", PStr raw),
    ("payload", PDict payload),
    ("messages", PList
      [ PDict [("role", PStr "system"), ("content", PStr systemContent)],
        PDict [("role", PStr "user"), ("content", PStr prompt)] ]) ]

/-- One attempt's `raw`: the normalised, stripped `invoke` response at
counter `k`. -/
def attemptRaw (bk : Backend) (k : Nat) : String :=
  pyStrip (normalizeContent (bk.resp k))

/-- One attempt's validated payload: decode (4.1) then validate (4.2) for
the given stage. -/
def attemptPayload (bk : Backend) (stage : String) (k : Nat) : PyDict :=
  validatePayloadForStage stage (decode_llm_payload bk.repairJson (attemptRaw bk k))

/-- The success check of `_call_llm`:
`if payload and any(payload.values())`. -/
def attemptAccepted (bk : Backend) (stage : String) (k : Nat) : Bool :=
  !(attemptPayload bk stage k).isEmpty && anyTruthy (attemptPayload bk stage k)

/-- The attempt loop of `_call_llm`: `lastRaw` carries the `raw` variable
that outlives the Python `for` loop and feeds the fallback record.  The
counter `k` indexes successive `self.llm.invoke` calls. -/
def callLLMAux (cfg : PipelineCfg) (bk : Backend) (prompt stage systemContent : String) :
    Nat → String → Nat → PyDict × Nat
  | 0, lastRaw, k =>
      ([ ("stage", PStr stage),
         ("prompt", PStr prompt),
         ("system_prompt", PStr systemContent),
         ("raw_response", PStr lastRaw),
         ("payload", PDict [("error", PStr "max retries exceeded")]),
         ("messages", PList
           [ PDict [("role", PStr "system"), ("content", PStr systemContent)],
             PDict [("role", PStr "user"), ("content", PStr prompt)] ]) ], k)
  | n + 1, _, k =>
      let raw := attemptRaw bk k
      let payload := attemptPayload bk stage k
      if attemptAccepted bk stage k
      then (callRecord stage prompt systemContent raw payload, k + 1)
      else callLLMAux cfg bk prompt stage systemContent n raw (k + 1)

/-- `_call_llm(prompt, stage, retries=2)`: `retries + 1` attempts; each
attempt invokes the backend, normalises, decodes, validates, and accepts
when the validated payload is non-empty with a truthy value; exhaustion
returns the sentinel `{"error": "max retries exceeded"}` record.  The
second component is the invoke-counter after the call. -/
def callLLM (cfg : PipelineCfg) (bk : Backend) (prompt stage : String) (retries k : Nat) :
    PyDict × Nat :=
  let systemContent := cfg.system_prompt ++ "\nCurrent stage: " ++ stage ++ ". Return valid JSON as instructed."
  callLLMAux cfg bk prompt stage systemContent (retries + 1) "" k

/-! ### Iterative synonym expansion (`_expand_synonyms`) -/

/-- Python `v.get("payload", {})` when `v` is expected to be a dict; a
non-dict would raise `AttributeError`/`TypeError` in Python, which no
theorem exercises. -/
def asDict : PyVal → PyDict
  | PDict d => d
  | _ => []

/-- The merge step of one expansion iteration: `for syn in new_expanded:
if syn and syn not in all_synonyms: ...`.  Rationale entries are merged
only when the rationale payload value is a dict (subscripting any other
type there raises in Python; not exercised). -/
def mergeExpansion (iterNo : Nat) (newExpanded : List PyVal) (newRationale : PyVal)
    (syns : List PyVal) (prov : List (PyVal × Nat)) (rats : PyDict) :
    List PyVal × List (PyVal × Nat) × PyDict :=
  newExpanded.foldl
    (fun acc syn =>
      let (syns, prov, rats) := acc
      if pyTruthy syn ∧ ¬ syns.any (fun x => pyValBEq x syn) then
        let rats :=
          match syn, newRationale with
          | PStr s, PDict d =>
              if dictHas d s then dictSet rats s (pyGet d s PNone) else rats
          | _, _ => rats
        (syns ++ [syn], prov ++ [(syn, iterNo)], rats)
      else acc)
    (syns, prov, rats)

/-- Result of the expansion loop.  `counts` is ghost instrumentation for
the theorems: one entry per executed iteration, `some n` when the
iteration merged `n` genuinely-new candidates, `none` when it stopped on
a sentinel error payload.  All other fields mirror the source. -/
structure ExpandLoopOut where
  syns : List PyVal
  prov : List (PyVal × Nat)
  rats : PyDict
  calls : List PyVal
  itersRun : Nat
  lastNew : Nat
  k : Nat
  counts : List (Option Nat)

/-- The `for iteration in range(self.max_expansion_iterations)` loop of
`_expand_synonyms`.  `iterIdx` is the Python `iteration` value of the
next iteration; `prevNew` carries the `new_count` variable across
iterations (initialised to `0` before the loop in the source). -/
def expandLoop (cfg : PipelineCfg) (bk : Backend)
    (initialPayload sensePayload definitionPayload : PyDict) :
    Nat → Nat → List PyVal → List (PyVal × Nat) → PyDict → List PyVal → Nat → Nat →
    ExpandLoopOut
  | 0, iterIdx, syns, prov, rats, calls, prevNew, k =>
      ⟨syns, prov, rats, calls, iterIdx, prevNew, k, []⟩
  | fuel + 1, iterIdx, syns, prov, rats, calls, prevNew, k =>
      let prompt := renderExpansionPrompt cfg initialPayload sensePayload definitionPayload
      let (call, k) := callLLM cfg bk prompt ("expansion_iter_" ++ toString (iterIdx + 1)) 2 k
      let calls := calls ++ [PDict call]
      let payload := asDict (pyGet call "payload" (PDict []))
      if dictHas payload "error" then
        ⟨syns, prov, rats, calls, iterIdx + 1, prevNew, k, [none]⟩
      else
        let newExpanded := pyIter (pyGet payload "expanded_synonyms" (PList []))
        let newRationale := pyGet payload "rationale" (PDict [])
        let beforeCount := syns.length
        let (syns, prov, rats) := mergeExpansion (iterIdx + 1) newExpanded newRationale syns prov rats
        let newCount := syns.length - beforeCount
        if newCount = 0 then
          ⟨syns, prov, rats, calls, iterIdx + 1, 0, k, [some 0]⟩
        else
          let out := expandLoop cfg bk initialPayload sensePayload definitionPayload
            fuel (iterIdx + 1) syns prov rats calls newCount k
          ⟨out.syns, out.prov, out.rats, out.calls, out.itersRun, out.lastNew, out.k,
            some newCount :: out.counts⟩

/-- The deduplicated initial candidate set
`set(t for t in initial_translations if t is not None)`, kept in first
occurrence order (only size, membership and the final `sorted` of the set
are observable). -/
def initialSet (initialTranslations : List PyVal) : List PyVal :=
  (initialTranslations.filter (fun t => !pyValBEq t PNone)).foldl
    (fun acc t => if acc.any (fun x => pyValBEq x t) then acc else acc ++ [t]) []

/-- `_expand_synonyms` applied to the three upstream payloads, returning
the node's `final_call_result` dict, the next invoke-counter, and the
ghost per-iteration `counts` trace.  With `max_expansion_iterations = 0`
the Python source raises `NameError` (`iteration` is never bound); the
embedding is only claimed for budgets ≥ 1. -/
def expandSynonyms (cfg : PipelineCfg) (bk : Backend)
    (initialPayload sensePayload definitionPayload : PyDict) (k : Nat) :
    PyDict × Nat × List (Option Nat) :=
  let initialTranslations := pyIter (pyGet initialPayload "initial_translations" (PList []))
  let syns0 := initialSet initialTranslations
  let prov0 : List (PyVal × Nat) := syns0.map (fun s => (s, 0))
  let out := expandLoop cfg bk initialPayload sensePayload definitionPayload
    cfg.maxExpansionIterations 0 syns0 prov0 [] [] 0 k
  let finalPayload : PyDict :=
    [ ("expanded_synonyms", PList (pySorted out.syns)),
      ("rationale", PDict out.rats),
      ("iterations_run", PInt (out.itersRun : Int)),
      ("synonym_provenance", PDict (out.prov.map (fun p => (pyStrOf p.1, PInt (p.2 : Int))))),
      ("converged", PBool (out.lastNew = 0)) ]
  let finalCallResult : PyDict :=
    [ ("payload", PDict finalPayload),
      ("stage", PStr "synonym_expansion"),
      ("calls", PList out.calls),
      ("response", PStr ("Iterative expansion completed in " ++ toString out.itersRun ++ " iteration(s)")) ]
  (finalCallResult, out.k, out.counts)

/-! ### Compound deduplication (`_deduplicate_compounds`) -/

/-- `_deduplicate_compounds(words)`: keep entries whose `strip()` is
truthy, lower-case and trim them, then drop multi-word entries containing
some single-word entry as a space-bounded token (the flagged list is only
logged). -/
def deduplicate_compounds (words : List String) : List String :=
  let words := (words.filter (fun w => pyStrip w ≠ "")).map (fun w => pyLower (pyStrip w))
  let singles := words.filter (fun w => ¬ strContains w " ")
  words.filter (fun w =>
    ¬ (strContains w " " ∧ singles.any (fun s =>
        strContains (" " ++ w ++ " ") (" " ++ s ++ " "))))

/-! ### Result assembly (`_assemble_result`) and the compiled graph

`TransResult` carries the `TranslationResult` fields the claims speak
about.  The bookkeeping text fields (`raw_response`, the combined audit
`payload`, `curator_summary`) are pure repackaging of the per-stage call
records already modelled above and are referenced by no claim, so they
are not re-serialised here. -/

structure TransResult where
  translation : String
  definition_translation : String
  translated_synonyms : List String
  target_lang : String
  source_lang : String
  source : PyDict
  examples : List String
  notes : Option String
  lexname : PyVal
  topic_domains : PyVal

/-- The state threaded between the LangGraph nodes (each field defaults
to the empty dict, mirroring `state.get(key, {}) or {}`). -/
structure GraphState where
  synset : PyDict
  sense_analysis : PyDict
  definition_translation : PyDict
  initial_translation_call : PyDict
  expansion_call : PyDict
  filtering_call : PyDict
  definition_quality_call : PyDict

/-- Order-preserving dedup with a `seen` set, skipping falsy entries:
the `if syn and syn not in seen` loops of `_assemble_result`. -/
def dedupKeepOrder (l : List String) : List String :=
  (l.foldl (fun acc s => if s ≠ "" ∧ ¬ acc.contains s then acc ++ [s] else acc) [])

/-- The extraction of `translated_synonyms` from the filtering payload in
`_assemble_result`: list entries (or a single non-list truthy value) are
`str().strip()`-ed, falsy entries dropped. -/
def extractFiltered : PyVal → List String
  | PList l => (l.filter pyTruthy).map (fun syn => pyStrip (pyStrOf syn))
  | v => if pyTruthy v then [pyStrip (pyStrOf v)] else []

/-- The examples gathering of `_assemble_result` (definition-translation
stage only, tuple/list or single-string shapes). -/
def extractExamples : PyVal → List String
  | PList l => (l.filter pyTruthy).map (fun ex => pyStrip (pyStrOf ex))
  | PStr s => if pyStrip s ≠ "" then [pyStrip s] else []
  | _ => []

/-- `str(x).strip() if x and str(x).strip() else ""` as used for notes. -/
def noteText (v : PyVal) : String :=
  if pyTruthy v ∧ pyStrip (pyStrOf v) ≠ "" then pyStrip (pyStrOf v) else ""

/-- `_assemble_result(state)`. -/
def assembleResult (cfg : PipelineCfg) (bk : Backend) (st : GraphState) : TransResult :=
  let synset := st.synset
  let definitionPayload := asDict (pyGet st.definition_translation "payload" (PDict []))
  let filteringPayload := asDict (pyGet st.filtering_call "payload" (PDict []))
  let definitionQualityPayload := asDict (pyGet st.definition_quality_call "payload" (PDict []))
  let definitionTranslation :=
    pyStrip (pyStrOf (pyGet definitionPayload "definition_translation" (PStr "")))
  let qualityStatus :=
    pyLower (pyStrOf (pyOr (pyGet definitionQualityPayload "status" (PStr "")) (PStr "")))
  let qualityRevision := pyGet definitionQualityPayload "revised_definition" PNone
  let qualityRevisionText :=
    match qualityRevision with
    | PStr s => pyStrip s
    | PNone => ""
    | v => pyStrip (pyStrOf v)
  let definitionTranslation :=
    if qualityRevisionText ≠ "" ∧ (qualityStatus = "needs_revision" ∨ definitionTranslation = "")
    then qualityRevisionText else definitionTranslation
  let translatedSynonyms := extractFiltered (pyGet filteringPayload "filtered_synonyms" (PList []))
  let translatedSynonyms := dedupKeepOrder translatedSynonyms
  let translatedSynonyms := deduplicate_compounds translatedSynonyms
  let translation := (translatedSynonyms.headD "")
  let examples := dedupKeepOrder (extractExamples (pyGet definitionPayload "examples" PNone))
  let primaryNote := noteText (pyGet definitionPayload "notes" PNone)
  let fallbackNote := noteText (pyGet definitionQualityPayload "notes" PNone)
  let notes := if primaryNote ≠ "" then some primaryNote
    else if fallbackNote ≠ "" then some fallbackNote else none
  let englishId := pyOr (pyGet synset "id" PNone)
    (pyOr (pyGet synset "english_id" PNone) (pyOr (pyGet synset "ili_id" PNone) (PStr "")))
  let domainInfo := getWordnetDomainInfo bk englishId
  let lexname := pyGet domainInfo "lexname" PNone
  let topicDomains := pyGet domainInfo "topic_domains" (PList [])
  ⟨translation, definitionTranslation, translatedSynonyms, cfg.target_lang, cfg.source_lang,
    synset, examples, notes, lexname, topicDomains⟩

/-! The seven LangGraph nodes, wired in the fixed edge order of
`_build_graph` (`analyse_sense → translate_definition →
translate_all_lemmas → expand_synonyms → filter_synonyms →
review_definition_quality → assemble_result`).  Each node reads the
upstream payloads exactly as the source methods do; the `Nat` component
threads the backend invoke-counter. -/

def analyseSenseNode (cfg : PipelineCfg) (bk : Backend) (st : GraphState) (k : Nat) :
    GraphState × Nat :=
  let prompt := renderSensePrompt bk st.synset
  let (call, k) := callLLM cfg bk prompt "sense_analysis" 2 k
  (⟨st.synset, call, st.definition_translation, st.initial_translation_call,
    st.expansion_call, st.filtering_call, st.definition_quality_call⟩, k)

def translateDefinitionNode (cfg : PipelineCfg) (bk : Backend) (st : GraphState) (k : Nat) :
    GraphState × Nat :=
  let sensePayload := asDict (pyGet st.sense_analysis "payload" (PDict []))
  let prompt := renderDefinitionPrompt cfg st.synset sensePayload
  let (call, k) := callLLM cfg bk prompt "definition_translation" 2 k
  (⟨st.synset, st.sense_analysis, call, st.initial_translation_call,
    st.expansion_call, st.filtering_call, st.definition_quality_call⟩, k)

def translateAllLemmasNode (cfg : PipelineCfg) (bk : Backend) (st : GraphState) (k : Nat) :
    GraphState × Nat :=
  let sensePayload := asDict (pyGet st.sense_analysis "payload" (PDict []))
  let prompt := renderInitialTranslationPrompt cfg st.synset sensePayload
  let (call, k) := callLLM cfg bk prompt "initial_translation" 2 k
  (⟨st.synset, st.sense_analysis, st.definition_translation, call,
    st.expansion_call, st.filtering_call, st.definition_quality_call⟩, k)

def expandSynonymsNode (cfg : PipelineCfg) (bk : Backend) (st : GraphState) (k : Nat) :
    GraphState × Nat :=
  let initialPayload := asDict (pyGet st.initial_translation_call "payload" (PDict []))
  let sensePayload := asDict (pyGet st.sense_analysis "payload" (PDict []))
  let definitionPayload := asDict (pyGet st.definition_translation "payload" (PDict []))
  let (callResult, k, _) := expandSynonyms cfg bk initialPayload sensePayload definitionPayload k
  (⟨st.synset, st.sense_analysis, st.definition_translation, st.initial_translation_call,
    callResult, st.filtering_call, st.definition_quality_call⟩, k)

def filterSynonymsNode (cfg : PipelineCfg) (bk : Backend) (st : GraphState) (k : Nat) :
    GraphState × Nat :=
  let expansionPayload := asDict (pyGet st.expansion_call "payload" (PDict []))
  let sensePayload := asDict (pyGet st.sense_analysis "payload" (PDict []))
  let definitionPayload := asDict (pyGet st.definition_translation "payload" (PDict []))
  let prompt := renderFilteringPrompt cfg expansionPayload sensePayload definitionPayload
  let (call, k) := callLLM cfg bk prompt "synonym_filtering" 2 k
  (⟨st.synset, st.sense_analysis, st.definition_translation, st.initial_translation_call,
    st.expansion_call, call, st.definition_quality_call⟩, k)

def reviewDefinitionQualityNode (cfg : PipelineCfg) (bk : Backend) (st : GraphState) (k : Nat) :
    GraphState × Nat :=
  let filteringPayload := asDict (pyGet st.filtering_call "payload" (PDict []))
  let definitionPayload := asDict (pyGet st.definition_translation "payload" (PDict []))
  let filteredSynonyms := (pyIter (pyGet filteringPayload "filtered_synonyms" (PList []))).map pyStrOf
  let definitionTranslation :=
    pyStrOf (pyOr (pyGet definitionPayload "definition_translation" (PStr "")) (PStr ""))
  let prompt := renderDefinitionQualityPrompt filteredSynonyms definitionTranslation cfg.target_lang
  let (call, k) := callLLM cfg bk prompt "definition_quality" 2 k
  (⟨st.synset, st.sense_analysis, st.definition_translation, st.initial_translation_call,
    st.expansion_call, st.filtering_call, call⟩, k)

/-- `translate_synset(synset)`: `self._graph.invoke({"synset": synset})`
runs the seven nodes in the fixed linear order and returns the assembled
result; the second component is the total number of backend invocations
performed during the run. -/
def translateSynset (cfg : PipelineCfg) (bk : Backend) (synset : PyDict) : TransResult × Nat :=
  let st : GraphState := ⟨synset, [], [], [], [], [], []⟩
  let (st, k) := analyseSenseNode cfg bk st 0
  let (st, k) := translateDefinitionNode cfg bk st k
  let (st, k) := translateAllLemmasNode cfg bk st k
  let (st, k) := expandSynonymsNode cfg bk st k
  let (st, k) := filterSynonymsNode cfg bk st k
  let (st, k) := reviewDefinitionQualityNode cfg bk st k
  (assembleResult cfg bk st, k)

/-! ### The sequential pipeline (`translation_pipeline.py`): field
helpers, `_build_source_text`, `_build_synset_context`, `translate_one` -/

/-- `LANGUAGE_FIELD_MAP[lang][kind]` (`None` entries and unknown
languages yield no primary candidate, as `cfg.get(kind)` does). -/
def langFieldPrimary (lang kind : String) : Option String :=
  if lang = "en" then
    if kind = "definition" then some "english_definition"
    else if kind = "lemmas" then some "english_lemmas"
    else if kind = "examples" then some "english_examples"
    else if kind = "usage" then none
    else if kind = "relations" then some "english_relations"
    else if kind = "id" then some "english_id"
    else none
  else if lang = "sr" then
    if kind = "definition" then some "serbian_definition"
    else if kind = "lemmas" then some "serbian_synonyms"
    else if kind = "examples" then none
    else if kind = "usage" then some "serbian_usage"
    else if kind = "relations" then some "serbian_relations"
    else if kind = "id" then some "serbian_id"
    else none
  else none

/-- `GENERIC_FALLBACKS[kind]`. -/
def genericFallbacks (kind : String) : List String :=
  if kind = "definition" then ["definition"]
  else if kind = "lemmas" then ["lemmas", "synonyms"]
  else if kind = "examples" then ["examples"]
  else if kind = "usage" then ["usage"]
  else if kind = "relations" then ["relations"]
  else if kind = "id" then ["id"]
  else []

/-- `_field_candidates(kind, lang)`. -/
def fieldCandidates (kind lang : String) : List String :=
  (match langFieldPrimary lang kind with
   | some p => [p]
   | none => []) ++ genericFallbacks kind

/-- `_get_text_field`: first candidate key holding a string with
non-blank `strip()`, stripped. -/
def getTextField (obj : PyDict) (kind lang : String) : String :=
  (fieldCandidates kind lang).foldr
    (fun key rest =>
      match dictFind obj key with
      | some (PStr s) => if pyStrip s ≠ "" then pyStrip s else rest
      | _ => rest)
    ""

/-- `_get_list_field`: first candidate key holding a non-empty list,
keeping only its `str`/`int`/`float` entries as strings (Python's
`isinstance(x, int)` also admits `bool`; floats are outside this
embedding). -/
def getListField (obj : PyDict) (kind lang : String) : List String :=
  (fieldCandidates kind lang).foldr
    (fun key rest =>
      match dictFind obj key with
      | some (PList l) =>
          if l.isEmpty then rest
          else (l.filter (fun x => match x with
            | PStr _ => true | PInt _ => true | PBool _ => true | _ => false)).map pyStrOf
      | _ => rest)
    []

/-- `_get_relations`: first candidate key holding a dict. -/
def getRelations (obj : PyDict) (kind lang : String) : Option PyDict :=
  (fieldCandidates kind lang).foldr
    (fun key rest =>
      match dictFind obj key with
      | some (PDict d) => some d
      | _ => rest)
    none

/-- `_get_id`: first candidate key holding a `str` or `int` (hence also
`bool`), as a string. -/
def getId (obj : PyDict) (lang : String) : Option String :=
  (fieldCandidates "id" lang).foldr
    (fun key rest =>
      match dictFind obj key with
      | some (PStr s) => some s
      | some (PInt n) => some (pyStrOf (PInt n))
      | some (PBool b) => some (pyStrOf (PBool b))
      | _ => rest)
    none

/-- `_build_source_text`: definition, else joined lemmas, else first
non-blank example, else usage, else empty. -/
def buildSourceText (sourceLang : String) (synset : PyDict) : String :=
  let definition := getTextField synset "definition" sourceLang
  if definition ≠ "" then definition
  else
    let lemmas := getListField synset "lemmas" sourceLang
    if ¬ lemmas.isEmpty then pyStrip (pyJoin ", " lemmas)
    else
      let examples := getListField synset "examples" sourceLang
      match examples.find? (fun e => pyStrip e ≠ "") with
      | some e => pyStrip e
      | none =>
          let usage := getTextField synset "usage" sourceLang
          if usage ≠ "" then usage else ""

/-- Python `int(v)` where it can succeed on the payload values in play
(`int`, `bool`, and decimal strings with optional sign and surrounding
whitespace); `none` models the `ValueError`/`TypeError` branch. -/
def pyIntOf (v : PyVal) : Option Int :=
  match v with
  | PInt n => some n
  | PBool b => some (if b then 1 else 0)
  | PStr s =>
      let t := pyStrip s
      let (neg, ds) := match t.data with
        | '-' :: rest => (true, rest)
        | '+' :: rest => (false, rest)
        | cs => (false, cs)
      if ds ≠ [] ∧ ds.all Char.isDigit then
        some (if neg then -(digitsToNat ds : Int) else (digitsToNat ds : Int))
      else none
  | _ => none

/-- `_build_synset_context`. -/
def buildSynsetContext (sourceLang targetLang : String) (synset : PyDict) : String :=
  let srcDef := getTextField synset "definition" sourceLang
  let lines : List String := if srcDef ≠ ""
    then ["Definition [" ++ sourceLang ++ "]: " ++ srcDef] else []
  let tgtDef := getTextField synset "definition" targetLang
  let lines := if tgtDef ≠ "" ∧ tgtDef ≠ srcDef
    then lines ++ ["Definition [" ++ targetLang ++ "]: " ++ tgtDef] else lines
  let srcLemmas := getListField synset "lemmas" sourceLang
  let lines := if ¬ srcLemmas.isEmpty
    then lines ++ ["Lemmas/Synonyms [" ++ sourceLang ++ "]: " ++ pyJoin ", " srcLemmas] else lines
  let tgtLemmas := getListField synset "lemmas" targetLang
  let lines := if ¬ tgtLemmas.isEmpty
    then lines ++ ["Lemmas/Synonyms [" ++ targetLang ++ "]: " ++ pyJoin ", " tgtLemmas] else lines
  let tgtUsage := getTextField synset "usage" targetLang
  let lines := if tgtUsage ≠ ""
    then lines ++ ["Usage [" ++ targetLang ++ "]: " ++ tgtUsage] else lines
  let srcExamples := getListField synset "examples" sourceLang
  let lines := match srcExamples.find? (fun e => pyStrip e ≠ "") with
    | some eg => lines ++ ["Example [" ++ sourceLang ++ "]: " ++ pyStrip eg]
    | none => lines
  let relObj : Option PyDict :=
    match getRelations synset "relations" targetLang with
    | some d => if ¬ d.isEmpty then some d else getRelations synset "relations" sourceLang
    | none => getRelations synset "relations" sourceLang
  let lines :=
    match relObj with
    | none => lines
    | some rel =>
        let total := pyGet rel "total_relations" PNone
        let byType := asDict (pyOr (pyGet rel "relations_by_type" PNone) (PDict []))
        let parts := (byType.take 5).map (fun kv =>
          match pyIntOf kv.2 with
          | some n => kv.1 ++ ":" ++ toString n
          | none => kv.1 ++ ":" ++ pyStrOf kv.2)
        if ¬ (pyValBEq total PNone) ∨ ¬ parts.isEmpty then
          let relLine := "Relations: total=" ++ pyStrOf total
          let relLine := if ¬ parts.isEmpty
            then relLine ++ "; types=(" ++ pyJoin ", " parts ++ ")" else relLine
          lines ++ [relLine]
        else lines
  pyJoin "\n" lines

/-- `TranslationPipeline.translate_one(synset, few_shots)`.  The
translation backend (`_dummy_translate` today, a model later) enters as
the parameter `tr`; `fewShots` is the truthiness of the optional
`few_shots` argument.  A synset with no translatable content returns the
skipped record before `tr` is ever consulted. -/
def translate_one (tr : String → String) (sourceLang targetLang : String)
    (synset : PyDict) (fewShots : Bool) : PyDict :=
  let sourceId : Option String :=
    match getId synset sourceLang with
    | some s => if s = "" then getId synset targetLang else some s
    | none => getId synset targetLang
  let sourceIdVal : PyVal := match sourceId with
    | some s => PStr s
    | none => PNone
  let sourceText := buildSourceText sourceLang synset
  let sourceContext := buildSynsetContext sourceLang targetLang synset
  if sourceText = "" then
    [ ("source_id", sourceIdVal),
      ("source_text", PStr ""),
      ("translated_text", PStr ""),
      ("metadata", PDict [("status", PStr "skipped"), ("reason", PStr "empty_source")]) ]
  else
    let translated := tr sourceText
    [ ("source_id", sourceIdVal),
      ("source_text", PStr sourceText),
      ("translated_text", PStr translated),
      ("metadata", PDict
        [ ("source_lang", PStr sourceLang),
          ("target_lang", PStr targetLang),
          ("used_few_shots", PBool fewShots) ]),
      ("source_context", PStr sourceContext) ]

/-! ### Specification-side definitions used by the theorems -/

/-- The union of all candidates ever produced by the lemma-translation
and expansion stages, as recorded in the run state's payloads (the
non-null initial translations and the expansion payload's
`expanded_synonyms`).  This follows the spec's words and is the
comparison point for the subset claim about `translated_synonyms`. -/
def upstreamCandidates (st : GraphState) : List String :=
  (((pyIter (pyGet (asDict (pyGet st.initial_translation_call "payload" (PDict [])))
      "initial_translations" (PList []))).filter (fun t => !pyValBEq t PNone)).map pyStrOf)
  ++ ((pyIter (pyGet (asDict (pyGet st.expansion_call "payload" (PDict [])))
      "expanded_synonyms" (PList []))).map pyStrOf)

/-- Python `text.split(" ")` (used to state what a *whole space-bounded
token* is, independently of the implementation's padding trick). -/
def splitSp : List Char → List (List Char)
  | [] => [[]]
  | c :: rest =>
      let r := splitSp rest
      if c = ' ' then [] :: r
      else
        match r with
        | [] => [[c]]
        | h :: t => (c :: h) :: t

/-- The whole space-separated words of a string (split chunks, empties
dropped). -/
def wordChunks (cs : List Char) : List (List Char) :=
  (splitSp cs).filter (fun c => !c.isEmpty)

/-- The compound deduplicator as the (amended) claim describes it:
lower-case/trim the candidates and drop the whitespace-only ones, then
partition into single-word and multi-word entries and drop exactly the
multi-word entries containing some single-word entry as a whole
space-bounded token, preserving everything else. -/
def dedupAmended (ws : List String) : List String :=
  let normalized := (ws.filter (fun w => pyStrip w ≠ "")).map (fun w => pyLower (pyStrip w))
  let parts := normalized.partition (fun w => ¬ strContains w " ")
  normalized.filter (fun w =>
    (¬ strContains w " ") ∨ ¬ parts.1.any (fun s =>
      strContains (" " ++ w ++ " ") (" " ++ s ++ " ")))

/-- The `new_count` value left behind by the expansion loop, as a
function of the carried-in previous count and the ghost iteration trace:
the count of the last iteration that merged, the carried value when the
trace stops on a sentinel, the carried value when there is no iteration. -/
def lastSpec : Nat → List (Option Nat) → Nat
  | prev, [] => prev
  | prev, none :: _ => prev
  | _, some n :: rest => lastSpec n rest

/-- Shape invariant of the expansion loop's ghost trace: a `some 0`
(convergence) or a `none` (sentinel stop) entry terminates the loop, so
only the last entry can be either; interior entries merged positively. -/
def traceOk : List (Option Nat) → Prop
  | [] => True
  | [_] => True
  | none :: _ :: _ => False
  | some n :: rest => n ≠ 0 ∧ traceOk rest

/-! Concrete inputs exercised by the claim theorems. -/

/-- A backend whose every response is unusable (empty text) and that has
no `json_repair` and no NLTK access. -/
def bkUnusable : Backend := ⟨fun _ => RespContent.str "", none, fun _ => []⟩

/-- Expansion backend: iteration 1 contributes the genuinely new
candidate `novi`, iteration 2 repeats the same list (no new candidates,
so the loop converges after it). -/
def bkTwoIter : Backend :=
  ⟨fun n => RespContent.str ((
    [ "\x7b\"expanded_synonyms\": [\"star\", \"novi\"], \"rationale\": \x7b\"novi\": \"common synonym\"\x7d\x7d",
      "\x7b\"expanded_synonyms\": [\"star\", \"novi\"]\x7d" ] : List String).getD n ""),
   none, fun _ => []⟩

def initialPayloadStar : PyDict := [("initial_translations", PList [PStr "star"])]

def expandOutTwoIter : PyDict :=
  (expandSynonyms defaultCfg bkTwoIter initialPayloadStar [] [] 0).1

/-- Expansion backend: iteration 1 contributes one new candidate, every
later response is unusable, so iteration 2 exhausts its retries and
stops the loop on the sentinel error payload. -/
def bkErrorAfterOne : Backend :=
  ⟨fun n => RespContent.str ((
    [ "\x7b\"expanded_synonyms\": [\"star\", \"novi\"], \"rationale\": \x7b\x7d\x7d" ] : List String).getD n ""),
   none, fun _ => []⟩

/-- Expansion backend whose payload carries a string where the contract
requires a list of strings (`expanded_synonyms`). -/
def bkStringSynonyms : Backend :=
  ⟨fun _ => RespContent.str "\x7b\"expanded_synonyms\": \"ab\"\x7d", none, fun _ => []⟩

/-- A graph state in which lemma-translation and expansion produced only
`stvarno` while the filtering stage's model payload returns the foreign
word `izmišljeno`. -/
def stForeignFiltering : GraphState :=
  ⟨ [],
    [],
    [],
    [("payload", PDict [("initial_translations", PList [PStr "stvarno"])])],
    [("payload", PDict [("expanded_synonyms", PList [PStr "stvarno"])])],
    [("payload", PDict [("filtered_synonyms", PList [PStr "izmišljeno"]),
                        ("confidence", PStr "high")])],
    [] ⟩

/-- The wrongly-typed sense-analysis payload: `sense_summary` must be a
string of length ≥ 3 but holds the integer `123`. -/
def senseBadPayload : PyDict := [("sense_summary", PInt 123), ("confidence", PStr "high")]

/-- An expansion payload with an extra key outside the contract. -/
def expansionExtraPayload : PyDict :=
  [("expanded_synonyms", PList [PStr "reč"]), ("rationale", PDict []), ("extra", PStr "x")]

/-- A malformed expansion payload (wrong type) carrying an extra key. -/
def expansionBadExtraPayload : PyDict :=
  [("expanded_synonyms", PStr "bad"), ("extra", PStr "x")]

/-! ## Theorems for the claims -/

/-- Claim C1 — the rendered expansion prompt is built from the initial
translations alone, not from the accumulated candidate set: in a run
whose first iteration merges the genuinely new candidate `novi`
(provenance 1), the second iteration's prompt is identical to the
first's and does not mention `novi` anywhere, although the accumulated
set at that point is `{star, novi}`.  This contradicts the claim (and
the source's own `# Generate prompt with current synonym set` comment):
each iteration is asked relative to the initial translations only. -/
theorem expansion_prompt_ignores_accumulated_candidates :
    pyGet (asDict ((pyIter (pyGet expandOutTwoIter "calls" (PList []))).getD 1 PNone)) "prompt" PNone
      = pyGet (asDict ((pyIter (pyGet expandOutTwoIter "calls" (PList []))).getD 0 PNone)) "prompt" PNone
    ∧ strContains (pyStrOf (pyGet (asDict ((pyIter (pyGet expandOutTwoIter "calls" (PList []))).getD 1 PNone)) "prompt" PNone)) "novi" = false
    ∧ pyGet (asDict (pyGet expandOutTwoIter "payload" (PDict []))) "expanded_synonyms" PNone
        = PList [PStr "novi", PStr "star"]
    ∧ pyGet (asDict (pyGet expandOutTwoIter "payload" (PDict []))) "synonym_provenance" PNone
        = PDict [("star", PInt 0), ("novi", PInt 1)] := by
  refine ⟨rfl, ?_, rfl, rfl⟩
  rfl

/-- Claim C3 — the expansion iterations call the model with stage names
`expansion_iter_N`, which the validator's stage→schema map does not
contain, so their payloads bypass schema validation entirely: a payload
whose `expanded_synonyms` is the *string* `"ab"` passes through
unchanged (first conjunct), although validating the same payload against
the expansion contract, as every other stage's payload is validated,
would have repaired it (second conjunct); the unvalidated string is then
merged character by character into the candidate set (third conjunct). -/
theorem expansion_payload_bypasses_schema_validation :
    validatePayloadForStage "expansion_iter_1" [("expanded_synonyms", PStr "ab")]
      = [("expanded_synonyms", PStr "ab")]
    ∧ validate_stage_payload [("expanded_synonyms", PStr "ab")] ExpansionSchema
      = [("expanded_synonyms", PStr "ab"), ("rationale", PDict []), ("iterations_run", PInt 1),
         ("synonym_provenance", PDict []), ("converged", PBool false)]
    ∧ pyGet (asDict (pyGet ((expandSynonyms defaultCfg bkStringSynonyms
        initialPayloadStar [] [] 0).1) "payload" (PDict []))) "expanded_synonyms" PNone
      = PList [PStr "a", PStr "b", PStr "star"] := by
  refine ⟨rfl, rfl, ?_⟩
  rfl

/-- Claim C4 — on a schema-validation failure the fallback merge
`{**fallback, **payload}` lets *every* original field win, including the
wrongly-typed ones: for `{"sense_summary": 123, "confidence": "high"}`
(an integer where the contract requires a string of length ≥ 3)
validation fails, yet the returned mapping keeps `sense_summary = 123`
instead of the claimed default `""`.  This contradicts the claim and the
function's own comment (`original values take precedence for valid
fields`) and docstring (`defaults for missing/invalid fields`). -/
theorem validation_failure_overlays_wrongly_typed_fields :
    pydanticValidate SenseAnalysisSchema senseBadPayload = none
    ∧ validate_stage_payload senseBadPayload SenseAnalysisSchema
      = [("sense_summary", PInt 123), ("contrastive_note", PNone), ("key_features", PList []),
         ("domain_tags", PList []), ("confidence", PStr "high")] := by
  exact ⟨rfl, rfl⟩

/-- Claim C6 — when all three attempts (the default 2 retries) of a
model invocation fail the success check, `_call_llm` returns a record
whose payload is exactly the sentinel `{"error": "max retries exceeded"}`
after exactly three backend invocations; it never raises (the embedding
is total by construction). -/
theorem call_llm_exhaustion_returns_sentinel (cfg : PipelineCfg) (bk : Backend)
    (prompt stage : String) (k : Nat)
    (h : ∀ i, i < 3 → attemptAccepted bk stage (k + i) = false) :
    pyGet (callLLM cfg bk prompt stage 2 k).1 "payload" PNone
      = PDict [("error", PStr "max retries exceeded")]
    ∧ (callLLM cfg bk prompt stage 2 k).2 = k + 3 := by
  have h0 := h 0 (by omega)
  have h1 := h 1 (by omega)
  have h2 := h 2 (by omega)
  simp only [Nat.add_zero] at h0
  have h2' : attemptAccepted bk stage (k + 1 + 1) = false := by
    rw [show k + 1 + 1 = k + 2 by omega]
    exact h2
  constructor
  · simp [callLLM, callLLMAux, h0, h1, h2', pyGet, dictFind]
  · simp [callLLM, callLLMAux, h0, h1, h2']

/-- Claim C6 witness — an unusable backend (every response empty) at the
sense-analysis stage: three invocations, sentinel payload. -/
theorem call_llm_exhaustion_witness :
    pyGet (callLLM defaultCfg bkUnusable "p" "sense_analysis" 2 0).1 "payload" PNone
      = PDict [("error", PStr "max retries exceeded")]
    ∧ (callLLM defaultCfg bkUnusable "p" "sense_analysis" 2 0).2 = 0 + 3 :=
  call_llm_exhaustion_returns_sentinel defaultCfg bkUnusable "p" "sense_analysis" 0 (by decide)

/-- Claim C7 (amended) — in the sequential pipeline, `translate_one` on
a synset with no translatable content returns the explicitly skipped
record and never consults the translation backend: the result does not
depend on the translator (nor on the few-shot flag). -/
theorem translate_one_empty_source_short_circuit
    (tr tr' : String → String) (src tgt : String) (synset : PyDict) (fs fs' : Bool)
    (h : buildSourceText src synset = "") :
    translate_one tr src tgt synset fs = translate_one tr' src tgt synset fs'
    ∧ pyGet (translate_one tr src tgt synset fs) "source_text" PNone = PStr ""
    ∧ pyGet (translate_one tr src tgt synset fs) "translated_text" PNone = PStr ""
    ∧ pyGet (translate_one tr src tgt synset fs) "metadata" PNone
        = PDict [("status", PStr "skipped"), ("reason", PStr "empty_source")] := by
  refine ⟨?_, ?_, ?_, ?_⟩ <;> simp [translate_one, h, pyGet, dictFind]

/-- Claim C7 (amended) witness — the empty synset under two different
translators and few-shot flags. -/
theorem translate_one_empty_source_witness :
    translate_one (fun s => s) "en" "sr" [] true
      = translate_one (fun _ => "X") "en" "sr" [] false
    ∧ pyGet (translate_one (fun s => s) "en" "sr" [] true) "metadata" PNone
        = PDict [("status", PStr "skipped"), ("reason", PStr "empty_source")] :=
  ⟨(translate_one_empty_source_short_circuit (fun s => s) (fun _ => "X") "en" "sr" [] true false rfl).1,
   (translate_one_empty_source_short_circuit (fun s => s) (fun _ => "X") "en" "sr" [] true false rfl).2.2.2⟩

/-- Claim C7 (counterexample) — the LangGraph pipeline has no such
short-circuit: translating the empty synset (no translatable content,
first conjunct) invokes the backend 18 times (six stages, three
exhausted attempts each), not zero times. -/
theorem langgraph_invokes_backend_on_empty_synset :
    buildSourceText "en" [] = ""
    ∧ (translateSynset defaultCfg bkUnusable []).2 = 18
    ∧ (translateSynset defaultCfg bkUnusable []).2 ≠ 0 := by
  have h18 : (translateSynset defaultCfg bkUnusable []).2 = 18 := rfl
  exact ⟨rfl, h18, fun h0 => absurd (h18.symm.trans h0) (by decide)⟩

/-- Claim C8 — the payload decoder returns a mapping for every input and
never raises (totality of the embedding); empty input yields the explicit
empty-result mapping, and when every decode strategy fails — no candidate
parses to a dict and the repair pass yields nothing — the result is the
mapping holding the cleaned text as free text. -/
theorem decoder_empty_input_and_all_fail_fallback
    (rep : Option (String → Option String)) (raw : String) :
    (raw = "" →
      decode_llm_payload rep raw
        = [("translation", PStr ""), ("examples", PList []), ("notes", PNone)])
    ∧ (raw ≠ "" →
      firstDictOf jsonLoads (decodeCandidates raw) = none →
      decodeRepairPass rep (decodeCandidates raw) = none →
      decode_llm_payload rep raw = [("translation", PStr (pyStrip (stripThink raw)))]) := by
  constructor
  · intro h
    simp [decode_llm_payload, h]
  · intro h h1 h2
    simp [decode_llm_payload, h, h1, h2]

/-- Claim C8 witness — no `json_repair`, and an input on which every
strategy fails; plus the empty input. -/
theorem decoder_fallback_witness :
    decode_llm_payload none "no braces here" = [("translation", PStr "no braces here")]
    ∧ decode_llm_payload none ""
        = [("translation", PStr ""), ("examples", PList []), ("notes", PNone)] :=
  ⟨(decoder_empty_input_and_all_fail_fallback none "no braces here").2
      (by decide) rfl rfl,
   (decoder_empty_input_and_all_fail_fallback none "").1 rfl⟩

/-- Claim C9 (counterexample) — the deduplicator also drops entries that
are empty after trimming: on `["treba", " "]` the whitespace-only entry
disappears, whereas lower-casing/trimming every candidate and dropping
only subsumed multi-word entries would keep it as `""`. -/
theorem whitespace_candidate_dropped_not_preserved :
    deduplicate_compounds ["treba", " "] = ["treba"]
    ∧ deduplicate_compounds ["treba", " "] ≠ ["treba", ""] := by
  refine ⟨rfl, fun h => ?_⟩
  exact absurd ((rfl : deduplicate_compounds ["treba", " "] = ["treba"]).symm.trans h) (by decide)

/-! Helper lemmas about dict operations and schema validation. -/

theorem dictHas_dictSet_self (d : PyDict) (k : String) (v : PyVal) :
    dictHas (dictSet d k v) k = true := by
  induction d with
  | nil => simp [dictSet, dictHas, dictFind]
  | cons kv rest ih =>
      by_cases h : kv.1 = k
      · simp [dictSet, h, dictHas, dictFind]
      · simpa [dictSet, h, dictHas, dictFind] using ih

theorem dictHas_dictSet_of (d : PyDict) (k' k : String) (v : PyVal)
    (h : dictHas d k' = true) : dictHas (dictSet d k v) k' = true := by
  induction d with
  | nil => simp [dictHas, dictFind] at h
  | cons kv rest ih =>
      obtain ⟨a, b⟩ := kv
      by_cases hk : a = k
      · subst hk
        by_cases hk' : a = k'
        · simp [dictSet, dictHas, dictFind, hk']
        · simp only [dictHas, dictFind, if_neg hk'] at h
          simpa [dictSet, dictHas, dictFind, if_neg hk'] using h
      · by_cases hk' : a = k'
        · subst hk'
          simp [dictSet, if_neg hk, dictHas, dictFind]
        · simp only [dictHas, dictFind, if_neg hk'] at h
          simpa [dictSet, if_neg hk, dictHas, dictFind, if_neg hk'] using ih h

theorem dictHas_foldlSet_preserve (l : List (String × PyVal)) :
    ∀ (acc : PyDict) (k : String), dictHas acc k = true →
      dictHas (l.foldl (fun acc kv => dictSet acc kv.1 kv.2) acc) k = true := by
  induction l with
  | nil => intro acc k h; simpa using h
  | cons kv rest ih =>
      intro acc k h
      exact ih (dictSet acc kv.1 kv.2) k (dictHas_dictSet_of acc k kv.1 kv.2 h)

theorem dictHas_dictMerge_right (b : PyDict) :
    ∀ (a : PyDict) (k : String), dictHas b k = true → dictHas (dictMerge a b) k = true := by
  induction b with
  | nil => intro a k h; simp [dictHas, dictFind] at h
  | cons kv rest ih =>
      intro a k h
      by_cases hk : kv.1 = k
      · subst hk
        exact dictHas_foldlSet_preserve rest (dictSet a kv.1 kv.2) kv.1
          (dictHas_dictSet_self a kv.1 kv.2)
      · simp [dictHas, dictFind, hk] at h
        exact ih (dictSet a kv.1 kv.2) k h

theorem fieldResult_name (f : FieldSpec) (p : PyDict) (kv : String × PyVal)
    (h : fieldResult f p = some kv) : kv.1 = f.name := by
  unfold fieldResult at h
  cases hf : dictFind p f.name with
  | some v =>
      rw [hf] at h
      simp only [Option.map_eq_some'] at h
      obtain ⟨v', _, hkv⟩ := h
      rw [← hkv]
  | none =>
      rw [hf] at h
      by_cases hr : f.required
      · simp [hr] at h
      · rw [if_neg hr, Option.some_inj] at h
        rw [← h]

theorem pydanticValidate_keys (s : StageSchema) :
    ∀ (p d : PyDict), pydanticValidate s p = some d →
      dictKeys d = s.map (fun f => f.name) := by
  induction s with
  | nil =>
      intro p d h
      simp [pydanticValidate] at h
      subst h; rfl
  | cons f rest ih =>
      intro p d h
      unfold pydanticValidate at h
      cases h1 : fieldResult f p with
      | none => rw [h1] at h; simp at h
      | some kv =>
          rw [h1] at h
          cases h2 : pydanticValidate rest p with
          | none => rw [h2] at h; simp at h
          | some tail =>
              rw [h2] at h
              simp at h
              subst h
              simp [dictKeys, fieldResult_name f p kv h1]
              simpa [dictKeys] using ih p tail h2

/-- Claim C10 — when a payload validates successfully against a stage
contract, the returned mapping has exactly the contract's declared
fields in declaration order (extra model-supplied keys are silently
dropped), whereas on validation failure the default-merge keeps every
key of the original payload. -/
theorem validated_payload_has_exactly_contract_fields (s : StageSchema) (p : PyDict) :
    (∀ d, pydanticValidate s p = some d →
        validate_stage_payload p s = d ∧ dictKeys d = s.map (fun f => f.name))
    ∧ (pydanticValidate s p = none →
        ∀ k, dictHas p k = true → dictHas (validate_stage_payload p s) k = true) := by
  constructor
  · intro d h
    exact ⟨by simp [validate_stage_payload, h], pydanticValidate_keys s p d h⟩
  · intro h k hk
    simp only [validate_stage_payload, h]
    exact dictHas_dictMerge_right p (fallbackFill s) k hk

/-- Claim C10 witness — the expansion contract: a well-typed payload
with an extra key validates to exactly the five declared fields; a
malformed payload with an extra key keeps that key through the
default-merge. -/
theorem validated_payload_fields_witness :
    validate_stage_payload expansionExtraPayload ExpansionSchema
      = [("expanded_synonyms", PList [PStr "reč"]), ("rationale", PDict []),
         ("iterations_run", PInt 1), ("synonym_provenance", PDict []),
         ("converged", PBool false)]
    ∧ dictKeys (validate_stage_payload expansionExtraPayload ExpansionSchema)
      = ["expanded_synonyms", "rationale", "iterations_run", "synonym_provenance", "converged"]
    ∧ dictHas (validate_stage_payload expansionBadExtraPayload ExpansionSchema) "extra" = true := by
  have h := (validated_payload_has_exactly_contract_fields ExpansionSchema expansionExtraPayload).1
    [("expanded_synonyms", PList [PStr "reč"]), ("rationale", PDict []),
     ("iterations_run", PInt 1), ("synonym_provenance", PDict []),
     ("converged", PBool false)] rfl
  refine ⟨h.1, ?_, ?_⟩
  · rw [h.1]
    exact h.2
  · exact (validated_payload_has_exactly_contract_fields ExpansionSchema
      expansionBadExtraPayload).2 rfl "extra" rfl

/-! Helper lemmas for the assembly subset property. -/

theorem mem_foldlDedup (l : List String) :
    ∀ (acc : List String) (x : String),
      x ∈ l.foldl (fun acc s => if s ≠ "" ∧ ¬ acc.contains s then acc ++ [s] else acc) acc →
      x ∈ acc ∨ x ∈ l := by
  induction l with
  | nil =>
      intro acc x h
      simp only [List.foldl_nil] at h
      exact Or.inl h
  | cons s rest ih =>
      intro acc x h
      simp only [List.foldl_cons] at h
      rcases ih _ x h with hacc | hrest
      · by_cases hc : (s ≠ "" ∧ ¬ acc.contains s)
        · rw [if_pos hc] at hacc
          rcases List.mem_append.mp hacc with h1 | h2
          · exact Or.inl h1
          · simp only [List.mem_singleton] at h2
            subst h2
            exact Or.inr (List.mem_cons_self _ _)
        · rw [if_neg hc] at hacc
          exact Or.inl hacc
      · exact Or.inr (List.mem_cons_of_mem _ hrest)

theorem mem_dedupKeepOrder (l : List String) (x : String)
    (h : x ∈ dedupKeepOrder l) : x ∈ l := by
  unfold dedupKeepOrder at h
  rcases mem_foldlDedup l [] x h with h0 | h1
  · exact absurd h0 (List.not_mem_nil x)
  · exact h1

theorem mem_deduplicate_compounds (l : List String) (w : String)
    (h : w ∈ deduplicate_compounds l) : ∃ s, s ∈ l ∧ w = pyLower (pyStrip s) := by
  simp only [deduplicate_compounds] at h
  have h1 := List.mem_of_mem_filter h
  obtain ⟨s, hs, hws⟩ := List.mem_map.mp h1
  exact ⟨s, List.mem_of_mem_filter hs, hws.symm⟩

/-- Claim C5 (amended) — every member of an assembled result's
`translated_synonyms` is the lower-cased, trimmed `str()` of some entry
of the filtering payload's `filtered_synonyms`; deduplication and
compound removal only ever remove.  The code does not enforce that the
filtering model returns a subset of the upstream candidates, so the
claimed inclusion in the lemma-translation/expansion union holds only
when the filtering payload itself respects it (see the counterexample). -/
theorem translated_synonyms_drawn_from_filtering_payload
    (cfg : PipelineCfg) (bk : Backend) (st : GraphState) (w : String)
    (h : w ∈ (assembleResult cfg bk st).translated_synonyms) :
    ∃ s, s ∈ extractFiltered (pyGet (asDict (pyGet st.filtering_call "payload" (PDict [])))
        "filtered_synonyms" (PList [])) ∧ w = pyLower (pyStrip s) := by
  have hproj : (assembleResult cfg bk st).translated_synonyms
      = deduplicate_compounds (dedupKeepOrder (extractFiltered
          (pyGet (asDict (pyGet st.filtering_call "payload" (PDict [])))
            "filtered_synonyms" (PList [])))) := rfl
  rw [hproj] at h
  obtain ⟨s, hs, hws⟩ := mem_deduplicate_compounds _ _ h
  exact ⟨s, mem_dedupKeepOrder _ _ hs, hws⟩

/-- Claim C5 (counterexample) — the filtering stage's payload is trusted
verbatim: when it returns `izmišljeno` although lemma-translation and
expansion only ever produced `stvarno`, the assembled
`translated_synonyms` contains `izmišljeno`, which is not in the union
of upstream candidates. -/
theorem filtering_can_introduce_foreign_candidates :
    (assembleResult defaultCfg bkUnusable stForeignFiltering).translated_synonyms
      = ["izmišljeno"]
    ∧ "izmišljeno" ∉ upstreamCandidates stForeignFiltering
    ∧ upstreamCandidates stForeignFiltering = ["stvarno", "stvarno"] := by
  refine ⟨rfl, ?_, rfl⟩
  decide

/-- Claim C5 (amended) witness — the foreign filtering output traced
back to the filtering payload entry it came from. -/
theorem translated_synonyms_source_witness :
    ∃ s, s ∈ extractFiltered (pyGet (asDict (pyGet stForeignFiltering.filtering_call
        "payload" (PDict []))) "filtered_synonyms" (PList []))
      ∧ "izmišljeno" = pyLower (pyStrip s) :=
  translated_synonyms_drawn_from_filtering_payload defaultCfg bkUnusable
    stForeignFiltering "izmišljeno" (by decide)

/-! Helper lemmas for the expansion convergence flag. -/

theorem traceOk_cons_some {n : Nat} {rest : List (Option Nat)}
    (hn : n ≠ 0) (h : traceOk rest) : traceOk (some n :: rest) := by
  cases rest with
  | nil => trivial
  | cons a l => exact ⟨hn, h⟩

theorem expandLoop_invariants (cfg : PipelineCfg) (bk : Backend) (ip sp dp : PyDict) :
    ∀ (fuel idx : Nat) (syns : List PyVal) (prov : List (PyVal × Nat)) (rats : PyDict)
      (calls : List PyVal) (prevNew k : Nat),
      (expandLoop cfg bk ip sp dp fuel idx syns prov rats calls prevNew k).lastNew
        = lastSpec prevNew (expandLoop cfg bk ip sp dp fuel idx syns prov rats calls prevNew k).counts
      ∧ traceOk (expandLoop cfg bk ip sp dp fuel idx syns prov rats calls prevNew k).counts
      ∧ (fuel ≠ 0 → (expandLoop cfg bk ip sp dp fuel idx syns prov rats calls prevNew k).counts ≠ []) := by
  intro fuel
  induction fuel with
  | zero =>
      intro idx syns prov rats calls prevNew k
      exact ⟨rfl, trivial, fun h => absurd rfl h⟩
  | succ n ih =>
      intro idx syns prov rats calls prevNew k
      rw [expandLoop]
      dsimp only
      split
      · exact ⟨rfl, trivial, fun _ => by simp⟩
      · split
        · exact ⟨rfl, trivial, fun _ => by simp⟩
        · rename_i hne h0
          refine ⟨?_, ?_, fun _ => by simp⟩
          · simp only [lastSpec]
            exact (ih _ _ _ _ _ _ _).1
          · exact traceOk_cons_some h0 (ih _ _ _ _ _ _ _).2.1

theorem lastSpec_zero_iff :
    ∀ (counts : List (Option Nat)) (prev : Nat), traceOk counts → counts ≠ [] →
      (lastSpec prev counts = 0 ↔
        counts.getLast? = some (some 0) ∨ (counts = [none] ∧ prev = 0)) := by
  intro counts
  induction counts with
  | nil => intro prev _ hne; exact absurd rfl hne
  | cons x rest ih =>
      intro prev htr _
      cases x with
      | none =>
          cases rest with
          | nil => simp [lastSpec]
          | cons a l => exact absurd htr (by simp [traceOk])
      | some m =>
          cases rest with
          | nil => simp [lastSpec]
          | cons a l =>
              obtain ⟨hm, htl⟩ := htr
              rw [show lastSpec prev (some m :: a :: l) = lastSpec m (a :: l) from rfl]
              rw [ih m htl (by simp)]
              constructor
              · rintro (h | ⟨h1, h2⟩)
                · exact Or.inl (by simpa [List.getLast?_cons_cons] using h)
                · exact absurd h2 hm
              · rintro (h | ⟨h1, h2⟩)
                · exact Or.inl (by simpa [List.getLast?_cons_cons] using h)
                · simp at h1

/-- Claim C2 (amended) — for any budget ≥ 1 (a budget of 0 raises
`NameError` in the source), the `converged` flag of the expansion record
is true iff the last iteration that completed without a sentinel error
merged zero new candidates — equivalently, iff the ghost iteration trace
ends in a zero-merge entry, or consists of a single sentinel stop (an
error in the very first iteration leaves the pre-loop `new_count = 0` in
place).  An error stop after a merging iteration reports
`converged=false` even though the final iteration performed added
nothing (see the counterexample). -/
theorem expansion_converged_iff (cfg : PipelineCfg) (bk : Backend) (ip sp dp : PyDict) (k : Nat)
    (h : 1 ≤ cfg.maxExpansionIterations) :
    (pyGet (asDict (pyGet (expandSynonyms cfg bk ip sp dp k).1 "payload" (PDict [])))
        "converged" PNone = PBool true)
    ↔ ((expandSynonyms cfg bk ip sp dp k).2.2.getLast? = some (some 0)
       ∨ (expandSynonyms cfg bk ip sp dp k).2.2 = [none]) := by
  obtain ⟨hln, htr, hne⟩ := expandLoop_invariants cfg bk ip sp dp cfg.maxExpansionIterations 0
    (initialSet (pyIter (pyGet ip "initial_translations" (PList []))))
    ((initialSet (pyIter (pyGet ip "initial_translations" (PList [])))).map (fun s => (s, 0)))
    [] [] 0 k
  have hne' := hne (by omega)
  simp only [expandSynonyms, pyGet, dictFind, asDict, Option.getD_some, reduceIte]
  constructor
  · intro hc
    have hz : (expandLoop cfg bk ip sp dp cfg.maxExpansionIterations 0
        (initialSet (pyIter (pyGet ip "initial_translations" (PList []))))
        ((initialSet (pyIter (pyGet ip "initial_translations" (PList [])))).map (fun s => (s, 0)))
        [] [] 0 k).lastNew = 0 := by
      simpa using hc
    rw [hln] at hz
    rcases (lastSpec_zero_iff _ 0 htr hne').mp hz with h1 | ⟨h1, _⟩
    · exact Or.inl h1
    · exact Or.inr h1
  · intro hc
    have hz : (expandLoop cfg bk ip sp dp cfg.maxExpansionIterations 0
        (initialSet (pyIter (pyGet ip "initial_translations" (PList []))))
        ((initialSet (pyIter (pyGet ip "initial_translations" (PList [])))).map (fun s => (s, 0)))
        [] [] 0 k).lastNew = 0 := by
      rw [hln]
      refine (lastSpec_zero_iff _ 0 htr hne').mpr ?_
      rcases hc with h1 | h1
      · exact Or.inl h1
      · exact Or.inr ⟨h1, rfl⟩
    simp only [pyGet] at hz
    simp [hz]

/-- Claim C2 (counterexample) — iteration 1 merges one new candidate and
iteration 2 stops on the sentinel error payload: the final iteration
actually performed (the second; its call record carries the sentinel)
added zero new candidates, yet `converged` is `false` — the claimed
equivalence fails on the error-stop path, where the previous iteration's
`new_count` is carried over. -/
theorem error_stop_breaks_converged_equivalence :
    (expandSynonyms defaultCfg bkErrorAfterOne initialPayloadStar [] [] 0).2.2
      = [some 1, none]
    ∧ pyGet (asDict (pyGet (expandSynonyms defaultCfg bkErrorAfterOne
        initialPayloadStar [] [] 0).1 "payload" (PDict []))) "converged" PNone = PBool false
    ∧ pyGet (asDict (pyGet (expandSynonyms defaultCfg bkErrorAfterOne
        initialPayloadStar [] [] 0).1 "payload" (PDict []))) "iterations_run" PNone = PInt 2
    ∧ pyGet (asDict ((pyIter (pyGet (expandSynonyms defaultCfg bkErrorAfterOne
        initialPayloadStar [] [] 0).1 "calls" (PList []))).getD 1 PNone)) "payload" PNone
      = PDict [("error", PStr "max retries exceeded")] := by
  exact ⟨rfl, rfl, rfl, rfl⟩

/-- Claim C2 (amended) witness — a run whose second iteration merges
nothing new without erroring: the trace ends in `some 0` and the flag is
true. -/
theorem expansion_converged_witness :
    pyGet (asDict (pyGet (expandSynonyms defaultCfg bkTwoIter
        initialPayloadStar [] [] 0).1 "payload" (PDict []))) "converged" PNone = PBool true :=
  (expansion_converged_iff defaultCfg bkTwoIter initialPayloadStar [] [] 0 (by decide)).mpr
    (Or.inl rfl)

/-! Helper lemmas for the compound deduplicator: the padded-substring
test of the implementation is exactly whole-token membership. -/

theorem listIsInit_iff (needle : List Char) :
    ∀ hay, listIsInit needle hay = true ↔ needle <+: hay := by
  induction needle with
  | nil => intro hay; simp [listIsInit, List.nil_prefix]
  | cons a as ih =>
      intro hay
      cases hay with
      | nil => simp [listIsInit]
      | cons b bs =>
          simp only [listIsInit, Bool.and_eq_true, decide_eq_true_eq, ih bs,
            List.cons_prefix_cons]

theorem strContainsAux_infixChar_iff (needle : List Char) :
    ∀ hay, strContainsAux needle hay = true ↔ needle <:+: hay := by
  intro hay
  induction hay with
  | nil =>
      simp only [strContainsAux, listIsInit_iff]
      constructor
      · intro h; exact h.isInfix
      · intro h; exact (List.infix_nil.mp h) ▸ List.nil_prefix
  | cons c rest ih =>
      simp only [strContainsAux, Bool.or_eq_true, listIsInit_iff, ih,
        List.infix_cons_iff]

theorem splitSp_ne_nil : ∀ cs : List Char, splitSp cs ≠ [] := by
  intro cs
  cases cs with
  | nil => simp [splitSp]
  | cons c rest =>
      simp only [splitSp]
      split
      · simp
      · split
        · simp
        · simp

theorem splitSp_append_space : ∀ (A B : List Char),
    splitSp (A ++ ' ' :: B) = splitSp A ++ splitSp B := by
  intro A B
  induction A with
  | nil => simp [splitSp]
  | cons a A' ih =>
      simp only [List.cons_append, splitSp, List.append_eq, ih]
      by_cases ha : a = ' '
      · simp [ha]
      · simp only [if_neg ha]
        rcases hA : splitSp A' with _ | ⟨h, t⟩
        · exact absurd hA (splitSp_ne_nil A')
        · simp [hA]

theorem splitSp_nospace : ∀ (sc : List Char), ' ' ∉ sc → splitSp sc = [sc] := by
  intro sc
  induction sc with
  | nil => intro _; rfl
  | cons c rest ih =>
      intro h
      have hc : c ≠ ' ' := fun hc => h (hc ▸ List.mem_cons_self c rest)
      have hr := ih (fun hm => h (List.mem_cons_of_mem c hm))
      simp [splitSp, if_neg hc, hr]

theorem wordChunks_append_space (A B : List Char) :
    wordChunks (A ++ ' ' :: B) = wordChunks A ++ wordChunks B := by
  simp [wordChunks, splitSp_append_space, List.filter_append]

theorem wordChunks_nospace (sc : List Char) (h : ' ' ∉ sc) (hne : sc ≠ []) :
    wordChunks sc = [sc] := by
  simp [wordChunks, splitSp_nospace sc h, hne]

def joinSp : List (List Char) → List Char
  | [] => []
  | [c] => c
  | c :: rest => c ++ ' ' :: joinSp rest

theorem joinSp_cons_cons (c : List Char) (d : List Char) (rest : List (List Char)) :
    joinSp (c :: d :: rest) = c ++ ' ' :: joinSp (d :: rest) := rfl

theorem joinSp_splitSp : ∀ cs : List Char, joinSp (splitSp cs) = cs := by
  intro cs
  induction cs with
  | nil => rfl
  | cons c rest ih =>
      by_cases hc : c = ' '
      · subst hc
        simp only [splitSp, if_true]
        rcases hr : splitSp rest with _ | ⟨h, t⟩
        · exact absurd hr (splitSp_ne_nil rest)
        · rw [hr] at ih
          rw [joinSp_cons_cons, List.nil_append, ih]
      · simp only [splitSp, if_neg hc]
        rcases hr : splitSp rest with _ | ⟨h, t⟩
        · exact absurd hr (splitSp_ne_nil rest)
        · rw [hr] at ih
          cases t with
          | nil => simpa [joinSp] using congrArg (c :: ·) ih
          | cons p ps =>
              rw [joinSp_cons_cons] at ih ⊢
              simp only [List.cons_append]
              rw [← ih]

theorem joinSp_append_cons (x : List Char) (post : List (List Char)) :
    ∀ (pre : List (List Char)), pre ≠ [] →
      joinSp (pre ++ x :: post) = joinSp pre ++ ' ' :: joinSp (x :: post) := by
  intro pre
  induction pre with
  | nil => intro h; exact absurd rfl h
  | cons q qs ih =>
      intro _
      cases qs with
      | nil => simp [joinSp_cons_cons, joinSp]
      | cons r rs =>
          have hne : r :: rs ≠ [] := by simp
          calc joinSp ((q :: r :: rs) ++ x :: post)
              = joinSp (q :: r :: (rs ++ x :: post)) := by simp
            _ = q ++ ' ' :: joinSp (r :: (rs ++ x :: post)) := joinSp_cons_cons q r _
            _ = q ++ ' ' :: joinSp ((r :: rs) ++ x :: post) := by simp
            _ = q ++ ' ' :: (joinSp (r :: rs) ++ ' ' :: joinSp (x :: post)) := by
                rw [ih hne]
            _ = (q ++ ' ' :: joinSp (r :: rs)) ++ ' ' :: joinSp (x :: post) := by simp
            _ = joinSp (q :: r :: rs) ++ ' ' :: joinSp (x :: post) := by
                rw [joinSp_cons_cons]

theorem token_infix_of_mem (sc cs : List Char)
    (hmem : sc ∈ wordChunks cs) :
    (' ' :: sc ++ [' ']) <:+: (' ' :: cs ++ [' ']) := by
  have hmem' : sc ∈ splitSp cs := (List.mem_filter.mp hmem).1
  obtain ⟨pre, post, hsplit⟩ := List.append_of_mem hmem'
  have hcs : cs = joinSp (pre ++ sc :: post) := by rw [← hsplit, joinSp_splitSp]
  cases pre with
  | nil =>
      cases post with
      | nil =>
          rw [hcs]
          exact List.infix_refl _
      | cons p ps =>
          rw [hcs, List.nil_append, joinSp_cons_cons]
          refine ⟨[], joinSp (p :: ps) ++ [' '], ?_⟩
          simp
  | cons q qs =>
      have hpre : (q :: qs) ≠ [] := by simp
      rw [hcs, joinSp_append_cons sc post (q :: qs) hpre]
      cases post with
      | nil =>
          refine ⟨' ' :: joinSp (q :: qs), [], ?_⟩
          simp [joinSp]
      | cons p ps =>
          rw [show joinSp (sc :: p :: ps) = sc ++ ' ' :: joinSp (p :: ps) from
            joinSp_cons_cons _ _ _]
          refine ⟨' ' :: joinSp (q :: qs), joinSp (p :: ps) ++ [' '], ?_⟩
          simp

theorem first_chunk_of_eq (sc : List Char) (hsp : ' ' ∉ sc) (hne : sc ≠ [])
    (Z Y : List Char) (h : Z ++ [' '] = sc ++ ' ' :: Y) : sc ∈ wordChunks Z := by
  rcases Y.eq_nil_or_concat with hY | ⟨Y', y, hY⟩
  · subst hY
    have hz : Z = sc := by
      have := List.append_inj' h (by simp)
      exact this.1
    rw [hz, wordChunks_nospace sc hsp hne]
    exact List.mem_singleton.mpr rfl
  · subst hY
    have h' : Z ++ [' '] = (sc ++ ' ' :: Y') ++ [y] := by
      rw [h]
      simp [List.concat_eq_append]
    have hza := List.append_inj' h' (by simp)
    rw [hza.1, wordChunks_append_space sc Y', wordChunks_nospace sc hsp hne]
    exact List.mem_append.mpr (Or.inl (List.mem_singleton.mpr rfl))

theorem mem_of_spaced_occurrence (sc : List Char) (hsp : ' ' ∉ sc) (hne : sc ≠ []) :
    ∀ (X cs Y : List Char), cs ++ [' '] = X ++ (' ' :: sc ++ [' ']) ++ Y →
      ∃ A B, cs = A ++ ' ' :: B ∧ sc ∈ wordChunks B := by
  intro X
  induction X with
  | nil =>
      intro cs Y h
      cases cs with
      | nil =>
          exfalso
          simp only [List.nil_append, List.cons_append] at h
          have := congrArg List.length h
          simp at this
      | cons c Z =>
          simp only [List.nil_append, List.cons_append, List.cons.injEq] at h
          obtain ⟨hc, hz⟩ := h
          refine ⟨[], Z, by rw [hc]; rfl, ?_⟩
          refine first_chunk_of_eq sc hsp hne Z Y ?_
          rw [hz]
          simp
  | cons x X' ih =>
      intro cs Y h
      cases cs with
      | nil =>
          exfalso
          have := congrArg List.length h
          simp at this
      | cons c Z =>
          simp only [List.cons_append, List.cons.injEq] at h
          obtain ⟨hc, hz⟩ := h
          obtain ⟨A, B, hAB, hmem⟩ := ih Z Y (by rw [hz]; simp)
          exact ⟨c :: A, B, by rw [hAB, List.cons_append], hmem⟩

theorem space_not_mem_of_not_contains (s : String) (h : strContains s " " = false) :
    ' ' ∉ s.data := by
  intro hm
  obtain ⟨pre, post, hsplit⟩ := List.append_of_mem hm
  have hsub : strContainsAux [' '] s.data = true := by
    refine (strContainsAux_infixChar_iff [' '] s.data).mpr ⟨pre, post, ?_⟩
    rw [hsplit]
    simp
  rw [strContains] at h
  simp only [show (" " : String).data = [' '] from rfl] at h
  rw [hsub] at h
  exact Bool.noConfusion h

theorem padded_data (w : String) : (" " ++ w ++ " ").data = ' ' :: w.data ++ [' '] := by
  rw [String.data_append, String.data_append]
  rfl

theorem token_bounded_substring_iff (w s : String) (hne : s ≠ "")
    (hnosp : strContains s " " = false) :
    (strContains (" " ++ w ++ " ") (" " ++ s ++ " ") = true ↔ s.data ∈ wordChunks w.data) := by
  have hsd : s.data ≠ [] := fun hd => hne (by cases s; simp at hd; rw [hd])
  have hsp := space_not_mem_of_not_contains s hnosp
  rw [strContains, padded_data, padded_data, strContainsAux_infixChar_iff]
  constructor
  · rintro ⟨X, Y, hXY⟩
    cases X with
    | nil =>
        simp only [List.nil_append, List.cons_append, List.cons.injEq] at hXY
        refine first_chunk_of_eq s.data hsp hsd w.data Y ?_
        rw [← hXY.2]
        simp
    | cons x X0 =>
        simp only [List.cons_append, List.cons.injEq] at hXY
        obtain ⟨A, B, hAB, hmem⟩ :=
          mem_of_spaced_occurrence s.data hsp hsd X0 w.data Y (by rw [← hXY.2]; simp)
        rw [hAB, wordChunks_append_space]
        exact List.mem_append.mpr (Or.inr hmem)
  · intro hmem
    exact token_infix_of_mem s.data w.data hmem

theorem dedup_eq_amended (ws : List String) : deduplicate_compounds ws = dedupAmended ws := by
  simp only [deduplicate_compounds, dedupAmended, List.partition_eq_filter_filter]
  apply List.filter_congr
  intro w _
  simp only [decide_eq_decide]
  rw [not_and_or]

/-- Claim C9 (amended) — the deduplicator lower-cases and trims every
candidate and drops the whitespace-only ones, then drops exactly those
multi-word entries containing some single-word entry as a whole
space-bounded token, preserving everything else (first conjunct, against
the claim-side `dedupAmended`); the implementation's padded-substring
test means exactly *whole space-bounded token* (second conjunct: for a
non-empty single word `s`, `" s "` occurs in `" w "` iff `s` is one of
the space-separated words of `w`); and the two spec scenarios hold. -/
theorem deduplicator_drops_exactly_subsumed_compounds :
    (∀ ws, deduplicate_compounds ws = dedupAmended ws)
    ∧ (∀ w s : String, s ≠ "" → strContains s " " = false →
        (strContains (" " ++ w ++ " ") (" " ++ s ++ " ") = true
          ↔ s.data ∈ wordChunks w.data))
    ∧ deduplicate_compounds ["metati", "pometati", "metati pod"] = ["metati", "pometati"]
    ∧ deduplicate_compounds ["institucija", "ustanova"] = ["institucija", "ustanova"] :=
  ⟨dedup_eq_amended, token_bounded_substring_iff, rfl, rfl⟩

/-- Claim C9 (amended) witness — `metati` is a whole token of
`metati pod`, so the compound is dropped; evaluated concretely. -/
theorem deduplicator_token_witness :
    "metati".data ∈ wordChunks "metati pod".data
    ∧ deduplicate_compounds ["metati", "pometati", "metati pod"] = ["metati", "pometati"] :=
  ⟨(deduplicator_drops_exactly_subsumed_compounds.2.1 "metati pod" "metati"
      (by decide) rfl).mp rfl,
   deduplicator_drops_exactly_subsumed_compounds.2.2.1⟩
